import Mathlib

/-!
# FarmtoClick web front-end: price management, seller dashboard, navigation bar

A shallow embedding of the client-side logic of
`web-frontend/src/pages/DTIPriceManagement.js`,
`web-frontend/src/pages/FarmerDashboard.js` and
`web-frontend/src/components/Navbar.js`.

React state is an explicit record; an event handler is a function from the
state (and from the answers of the environment: the confirmation prompt, the
outcome of each awaited request) to the list of requests it sends and the
state it leaves.  Handlers are run to completion, one at a time.
-/

namespace FarmtoClick

/-! ## JavaScript values -/

/-- ECMAScript `WhiteSpace` and `LineTerminator` code points: what
`String.prototype.trim` removes and what `parseFloat` skips. -/
def isWhiteSpace (c : Char) : Bool :=
  let n := c.toNat
  n = 0x09 || n = 0x0A || n = 0x0B || n = 0x0C || n = 0x0D || n = 0x20 ||
  n = 0xA0 || n = 0x1680 || (0x2000 ≤ n && n ≤ 0x200A) ||
  n = 0x2028 || n = 0x2029 || n = 0x202F || n = 0x205F || n = 0x3000 || n = 0xFEFF

/-- The builtin `String.prototype.trim`. -/
def trim (s : String) : String :=
  String.mk ((s.toList.dropWhile isWhiteSpace).reverse.dropWhile isWhiteSpace).reverse

/-- The builtin `String.prototype.includes` (no position argument). -/
def includes (s q : String) : Bool :=
  s.toList.tails.any (fun t => q.toList.isPrefixOf t)

/-- Truthiness of a string: only the empty string is falsy. -/
def strTruthy (s : String) : Bool := s ≠ ""

/-- The text `value || fallback` for a string `value` that may be missing:
`data.message || '...'`, `order.status || 'pending'`. -/
def textOr (m : Option String) (fallback : String) : String :=
  match m with
  | some t => if strTruthy t then t else fallback
  | none => fallback

/-- A blank text: empty, or white space only. -/
def isBlank (s : String) : Bool := s.toList.all isWhiteSpace

/-- A JavaScript number as `parseFloat` produces it.  A finite value is kept
as the decimal literal that was read, `± digits · 10 ^ exponent`; rounding to
binary64 is modelled only where the code looks at it (the truthiness test). -/
inductive JSNumber where
  | nan
  | infinity (negative : Bool)
  | finite (negative : Bool) (digits : Nat) (exponent : Int)
deriving DecidableEq, Repr

/-- Whether the decimal `digits · 10 ^ exponent` rounds to zero in binary64:
it is at most `2 ^ (-1075)`, half of the least subnormal.  A non-zero decimal
with exponent `-323` or more is above that bound, so only smaller exponents
are compared. -/
def roundsToZero (digits : Nat) (exponent : Int) : Bool :=
  digits = 0 || (exponent < -323 && digits * 2 ^ 1075 ≤ 10 ^ exponent.natAbs)

/-- Truthiness of a number: `NaN`, `+0` and `-0` are falsy. -/
def JSNumber.truthy : JSNumber → Bool
  | .nan => false
  | .infinity _ => true
  | .finite _ d e => !roundsToZero d e

/-- Whether a number is `+0` or `-0`. -/
def JSNumber.isZero : JSNumber → Bool
  | .finite _ d e => roundsToZero d e
  | _ => false

/-- The operator `a || b` on numbers. -/
def JSNumber.or (a b : JSNumber) : JSNumber := if a.truthy then a else b

/-- Value of a run of decimal digits. -/
def digitsToNat (ds : List Char) : Nat :=
  ds.foldl (fun n c => 10 * n + (c.toNat - 48)) 0

/-- The `ExponentPart` read by `parseFloat` after the mantissa: `e` or `E`, an
optional sign and at least one digit; anything else contributes nothing. -/
def parseExponent : List Char → Int
  | [] => 0
  | c :: rest =>
    if c = 'e' ∨ c = 'E' then
      let neg := rest.head? = some '-'
      let ds := match rest with
        | '-' :: r => r.takeWhile Char.isDigit
        | '+' :: r => r.takeWhile Char.isDigit
        | _ => rest.takeWhile Char.isDigit
      if ds = [] then 0
      else if neg then -(digitsToNat ds : Int) else (digitsToNat ds : Int)
    else 0

/-- The unsigned part of a `StrDecimalLiteral`, read as the longest prefix. -/
def parseUnsigned (negative : Bool) (body : List Char) : JSNumber :=
  if "Infinity".toList.isPrefixOf body then .infinity negative
  else
    let intPart := body.takeWhile Char.isDigit
    let afterInt := body.dropWhile Char.isDigit
    let fracPart := match afterInt with
      | '.' :: r => r.takeWhile Char.isDigit
      | _ => []
    let afterFrac := match afterInt with
      | '.' :: r => r.dropWhile Char.isDigit
      | _ => afterInt
    if intPart = [] ∧ fracPart = [] then .nan
    else .finite negative (digitsToNat (intPart ++ fracPart))
      (parseExponent afterFrac - (fracPart.length : Int))

/-- The builtin `parseFloat`: leading white space is skipped, the longest
prefix that is a decimal literal is read, and `NaN` is returned when there is
none. -/
def parseFloat (s : String) : JSNumber :=
  match s.toList.dropWhile isWhiteSpace with
  | '-' :: r => parseUnsigned true r
  | '+' :: r => parseUnsigned false r
  | body => parseUnsigned false body

/-- A JavaScript `Set`: its values in insertion order, without repetition. -/
structure JSSet (α : Type) where
  values : List α
  nodup : values.Nodup

namespace JSSet

variable {α : Type} [DecidableEq α]

/-- The empty set, `new Set()`. -/
def empty : JSSet α := ⟨[], List.nodup_nil⟩

/-- Membership test `set.has(x)`. -/
def has (s : JSSet α) (x : α) : Bool := decide (x ∈ s.values)

/-- Number of values `set.size`. -/
def size (s : JSSet α) : Nat := s.values.length

/-- Insertion `set.add(x)`: a new value goes last, a present one is kept. -/
def add (s : JSSet α) (x : α) : JSSet α :=
  if h : x ∈ s.values then s
  else ⟨s.values ++ [x], by
    rw [List.nodup_append]
    refine ⟨s.nodup, List.nodup_singleton x, ?_⟩
    intro a ha hb
    rw [List.mem_singleton] at hb
    exact h (hb ▸ ha)⟩

/-- Removal `set.delete(x)`. -/
def delete (s : JSSet α) (x : α) : JSSet α :=
  ⟨s.values.filter (fun y => decide (y ≠ x)), s.nodup.filter _⟩

/-- The constructor `new Set(iterable)`: the values are added one by one. -/
def ofArray (xs : List α) : JSSet α := xs.foldl add empty

/-- The spread `[...set]`. -/
def toArray (s : JSSet α) : List α := s.values

end JSSet

/-! ## Price management screen (`DTIPriceManagement.js`) -/

/-- A price record as the server returns it; a field the server left out is
`none`. -/
structure PriceRecord where
  _id : Option String
  product_name : Option String
  price_low : Option JSNumber
  price_high : Option JSNumber
  average_price : Option JSNumber
  unit : Option String
  source_file : Option String
  batch_id : Option String
  uploaded_at : Option String
deriving DecidableEq, Repr

/-- One banner of `flashMessages`. -/
structure FlashMessage where
  category : String
  text : Option String
deriving DecidableEq, Repr

/-- The draft of the manual entry form; every field is the text of an input. -/
structure ManualForm where
  product_name : String
  price_low : String
  price_high : String
  unit : String
deriving DecidableEq, Repr

/-- One draft row of the bulk entry table. -/
structure BulkRow where
  product_name : String
  price_low : String
  price_high : String
  unit : String
deriving DecidableEq, Repr

/-- The object posted for one price record by `manualEntry` and `bulkEntry`. -/
structure PriceEntry where
  product_name : String
  price_low : JSNumber
  price_high : JSNumber
  unit : String
deriving DecidableEq, Repr

/-- The value of `uploadResult`: the body of a successful upload, or the
object `{ raw_text_preview, error: true }` built after a failed one. -/
structure UploadResult where
  message : Option String
  records : Option (List PriceRecord)
  raw_text_preview : Option String
  error : Bool
deriving DecidableEq, Repr

/-- The body `error.response?.data` of a failed request. -/
structure ErrorData where
  error : Option String
  raw_text_preview : Option String
deriving DecidableEq, Repr

/-- How an awaited request ends: it throws (with the body of the error
response, when there is one) or it resolves. -/
abbrev Outcome (α : Type) := Except (Option ErrorData) α

/-- The local state of the component, one field per `useState`. -/
structure DTIState where
  records : List PriceRecord
  flashMessages : List FlashMessage
  loading : Bool
  activeTab : String
  manualForm : ManualForm
  bulkRows : List BulkRow
  pdfFile : Option String
  uploadResult : Option UploadResult
  searchQuery : String
  bulkDeleteMode : Bool
  selectedIds : JSSet (Option String)

/-- The calls of `dtiAPI`. -/
inductive DtiRequest where
  | getPrices
  | manualEntry (record : PriceEntry)
  | uploadPdf (file : String)
  | bulkEntry (records : List PriceEntry)
  | deleteRecord (id : Option String)
  | bulkDelete (ids : List (Option String)) (deleteAll : Option Bool)
deriving DecidableEq, Repr

/-- What running a handler gives: the requests sent, in order, and the state
once every state update it scheduled has been applied. -/
structure Handled where
  sent : List DtiRequest
  state : DTIState

/-- The initial value of the manual form and of a fresh bulk row. -/
def blankForm : ManualForm := ⟨"", "", "", "kg"⟩

/-- A fresh bulk row. -/
def blankRow : BulkRow := ⟨"", "", "", "kg"⟩

/-- The text `error.response?.data?.error || fallback`. -/
def errorText (e : Option ErrorData) (fallback : String) : String :=
  match e with
  | some d =>
    match d.error with
    | some m => if strTruthy m then m else fallback
    | none => fallback
  | none => fallback

section
variable (toLowerCase : String → String)

/-- The derived list `filteredRecords`; `toLowerCase` is the builtin
`String.prototype.toLowerCase`. -/
def filteredRecords (s : DTIState) : List PriceRecord :=
  s.records.filter (fun rec =>
    !strTruthy s.searchQuery ||
      (match rec.product_name with
        | none => false
        | some name => includes (toLowerCase name) (toLowerCase s.searchQuery)))

/-- The part of `loadRecords` after `await dtiAPI.getPrices()`. -/
def loadRecordsSettle (res : Outcome (Option (List PriceRecord))) (s : DTIState) : DTIState :=
  match res with
  | .ok recs => { s with records := recs.getD [], loading := false }
  | .error _ =>
    { s with
      flashMessages := [⟨"error", "Failed to load DTI price records."⟩]
      loading := false }

/-- The function `loadRecords`, which sends `getPrices`. -/
def loadRecords (res : Outcome (Option (List PriceRecord))) (s : DTIState) : DTIState :=
  loadRecordsSettle res { s with loading := true }

/-- The object `handleManualSubmit` passes to `dtiAPI.manualEntry`. -/
def manualEntryPayload (f : ManualForm) : PriceEntry :=
  { product_name := f.product_name
    price_low := parseFloat f.price_low
    price_high := (parseFloat f.price_high).or (parseFloat f.price_low)
    unit := f.unit }

/-- The handler `handleManualSubmit`. -/
def handleManualSubmit (s : DTIState) (post : Outcome Unit)
    (reload : Outcome (Option (List PriceRecord))) : Handled :=
  match post with
  | .ok _ =>
    ⟨[.manualEntry (manualEntryPayload s.manualForm), .getPrices],
      loadRecords reload
        { s with
          flashMessages := [⟨"success", "Price record added successfully!"⟩]
          manualForm := blankForm }⟩
  | .error e =>
    ⟨[.manualEntry (manualEntryPayload s.manualForm)],
      { s with flashMessages := [⟨"error", errorText e "Failed to add price record."⟩] }⟩

/-- The rows `handleBulkSubmit` keeps: `bulkRows.filter(r => r.product_name && r.price_low)`. -/
def validRows (rows : List BulkRow) : List BulkRow :=
  rows.filter (fun r => strTruthy r.product_name && strTruthy r.price_low)

/-- The object `handleBulkSubmit` builds from one kept row. -/
def bulkEntryPayload (r : BulkRow) : PriceEntry :=
  { product_name := r.product_name
    price_low := parseFloat r.price_low
    price_high := (parseFloat r.price_high).or (parseFloat r.price_low)
    unit := r.unit }

/-- The handler `handleBulkSubmit`; a resolved request carries `res.data.message`. -/
def handleBulkSubmit (s : DTIState) (post : Outcome (Option String))
    (reload : Outcome (Option (List PriceRecord))) : Handled :=
  if (validRows s.bulkRows).length = 0 then
    ⟨[], { s with flashMessages := [⟨"error", "Please fill in at least one row."⟩] }⟩
  else
    let records := (validRows s.bulkRows).map bulkEntryPayload
    match post with
    | .ok message =>
      ⟨[.bulkEntry records, .getPrices],
        loadRecords reload
          { s with flashMessages := [⟨"success", message⟩], bulkRows := [blankRow] }⟩
    | .error e =>
      ⟨[.bulkEntry records],
        { s with flashMessages := [⟨"error", errorText e "Failed to add records."⟩] }⟩

/-- The text `deleteRecord` passes to `window.confirm`. -/
def deleteRecordMsg (productName : Option String) : String :=
  "Delete price record for \"" ++ productName.getD "undefined" ++ "\"?"

/-- The handler `deleteRecord`; `confirm` is `window.confirm`. -/
def deleteRecord (s : DTIState) (recordId : Option String) (productName : Option String)
    (confirm : String → Bool) (del : Outcome Unit)
    (reload : Outcome (Option (List PriceRecord))) : Handled :=
  if !confirm (deleteRecordMsg productName) then
    ⟨[], s⟩
  else
    match del with
    | .ok _ =>
      ⟨[.deleteRecord recordId, .getPrices],
        loadRecords reload
          { s with
            flashMessages := [⟨"success", "Record deleted."⟩]
            selectedIds := s.selectedIds.delete recordId }⟩
    | .error _ =>
      ⟨[.deleteRecord recordId],
        { s with flashMessages := [⟨"error", "Failed to delete record."⟩] }⟩

/-- The handler `handleSelectAll`. -/
def handleSelectAll (s : DTIState) (checked : Bool) : DTIState :=
  if checked then
    { s with selectedIds := JSSet.ofArray ((filteredRecords toLowerCase s).map (fun r => r._id)) }
  else
    { s with selectedIds := JSSet.empty }

/-- The handler `handleSelectOne`. -/
def handleSelectOne (s : DTIState) (id : Option String) (checked : Bool) : DTIState :=
  { s with selectedIds := if checked then s.selectedIds.add id else s.selectedIds.delete id }

/-- The `checked` attribute of the select-all checkbox in the table header. -/
def selectAllChecked (s : DTIState) : Bool :=
  decide ((filteredRecords toLowerCase s).length > 0) &&
    (filteredRecords toLowerCase s).all (fun r => s.selectedIds.has r._id)

/-- The `disabled` attribute of the Delete Selected button (line 280). -/
def deleteSelectedDisabled (s : DTIState) : Bool := decide (s.selectedIds.size = 0)

/-- The constant `allSelected` of `handleBulkDelete`. -/
def allSelected (s : DTIState) : Bool :=
  decide (s.selectedIds.size = (filteredRecords toLowerCase s).length) &&
    decide ((filteredRecords toLowerCase s).length = s.records.length)

/-- The text `msg` that `handleBulkDelete` passes to `window.confirm`. -/
def bulkDeleteMsg (s : DTIState) : String :=
  if allSelected toLowerCase s then
    "Delete ALL " ++ toString s.records.length ++ " DTI price records?"
  else
    "Delete " ++ toString s.selectedIds.size ++ " selected record(s)?"

/-- The handler `handleBulkDelete`.  After a successful deletion the reload
is started without being awaited, the `finally` block clears `loading`, and
the reload then settles, clearing it again. -/
def handleBulkDelete (s : DTIState) (confirm : String → Bool) (del : Outcome Unit)
    (reload : Outcome (Option (List PriceRecord))) : Handled :=
  if s.selectedIds.size = 0 then ⟨[], s⟩
  else if !confirm (bulkDeleteMsg toLowerCase s) then ⟨[], s⟩
  else
    let request : DtiRequest :=
      if allSelected toLowerCase s then .bulkDelete [] (some true)
      else .bulkDelete s.selectedIds.toArray none
    match del with
    | .ok _ =>
      ⟨[request, .getPrices],
        loadRecords reload
          { s with
            flashMessages :=
              [⟨"success", toString s.selectedIds.size ++ " record(s) deleted."⟩]
            selectedIds := JSSet.empty
            bulkDeleteMode := false }⟩
    | .error e =>
      ⟨[request],
        { s with
          flashMessages := [⟨"error", errorText e "Failed to delete records."⟩]
          loading := false }⟩

/-- The exponent of an HTML valid floating-point number: nothing, or `e`/`E`,
an optional sign and one or more digits up to the end of the text. -/
def validExponent : List Char → Bool
  | [] => true
  | c :: rest =>
    (c = 'e' || c = 'E') &&
      (match rest with
        | '-' :: r => !r.isEmpty && r.all Char.isDigit
        | '+' :: r => !r.isEmpty && r.all Char.isDigit
        | _ => !rest.isEmpty && rest.all Char.isDigit)

/-- The mantissa and exponent of an HTML valid floating-point number: digits,
or digits followed by `.` and digits, or `.` and digits. -/
def validUnsigned (body : List Char) : Bool :=
  match body.dropWhile Char.isDigit with
  | '.' :: r => !(r.takeWhile Char.isDigit).isEmpty && validExponent (r.dropWhile Char.isDigit)
  | rest => !(body.takeWhile Char.isDigit).isEmpty && validExponent rest

/-- HTML "valid floating-point number", the only texts an
`<input type="number">` keeps as its value. -/
def validFloatingPoint (text : String) : Bool :=
  match text.toList with
  | '-' :: r => validUnsigned r
  | body => validUnsigned body

/-- The value of an `<input type="number">` whose `value` attribute is `text`:
the value sanitization algorithm replaces anything that is not a valid
floating-point number by the empty string. -/
def numberInputValue (text : String) : String :=
  if validFloatingPoint text then text else ""

/-- The value of an `<input type="text">` whose `value` attribute is `text`:
the value sanitization algorithm strips the line breaks. -/
def textInputValue (text : String) : String :=
  String.mk (text.toList.filter (fun c => c ≠ '\n' && c ≠ '\r'))

/-- An `<input>` element with the attributes that take part in constraint
validation: `required`, and for `type="number"` also `min` and `step`;
`value` is the text bound to the input. -/
inductive FormInput where
  | text (required : Bool) (value : String)
  | number (required : Bool) (min step : String) (value : String)
deriving DecidableEq, Repr

/-- The inputs of the manual entry form (lines 471-493): the product name,
`type="text" required`; the low price, `type="number" step="0.01" min="0.01"
required`; the high price, `type="number" step="0.01" min="0.01"`.  The unit
is a `<select>` without constraints. -/
def manualFormInputs (f : ManualForm) : List FormInput :=
  [.text true f.product_name,
   .number true "0.01" "0.01" f.price_low,
   .number false "0.01" "0.01" f.price_high]

/-- The decimal exponent of a finite number. -/
def JSNumber.exponent : JSNumber → Int
  | .finite _ _ e => e
  | _ => 0

/-- A finite number as a whole number of units `10 ^ unit`, for a `unit` not
above its exponent; `none` for `NaN` and the infinities. -/
def JSNumber.inUnits (unit : Int) : JSNumber → Option Int
  | .finite negative digits e =>
    some ((if negative then -1 else 1) * (digits : Int) * 10 ^ (e - unit).toNat)
  | _ => none

/-- Whether a number passes `min` and `step` (a positive step): it is not
below `min` (no `rangeUnderflow`) and differs from `min`, the step base, by a
whole number of steps (no `stepMismatch`).  The three decimals are compared
as whole numbers of their smallest unit.  A text that is not a number is not
constrained. -/
def meetsMinAndStep (min step : String) (value : String) : Bool :=
  let unit := Min.min (parseFloat value).exponent
    (Min.min (parseFloat min).exponent (parseFloat step).exponent)
  match (parseFloat value).inUnits unit, (parseFloat min).inUnits unit,
    (parseFloat step).inUnits unit with
  | some v, some m, some st => decide (m ≤ v) && decide ((v - m) % st = 0)
  | _, _, _ => true

/-- Constraint validation of one input: a required input must have a
non-empty value (no `valueMissing`), and a non-empty number must pass `min`
and `step`.  The value of a number input is the sanitized one. -/
def FormInput.valid : FormInput → Bool
  | .text required value => !(required && textInputValue value = "")
  | .number required min step value =>
    if numberInputValue value = "" then !required
    else meetsMinAndStep min step (numberInputValue value)

/-- Whether the manual entry form passes the browser's constraint validation:
every input is valid. -/
def manualFormValid (f : ManualForm) : Bool :=
  (manualFormInputs f).all FormInput.valid

/-- The submission of `<form onSubmit={handleManualSubmit}>` through its submit
button: the browser validates the inputs first and dispatches the `submit`
event, which runs the handler, only when the form is valid. -/
def manualFormSubmit (s : DTIState) (post : Outcome Unit)
    (reload : Outcome (Option (List PriceRecord))) : Handled :=
  if manualFormValid s.manualForm then handleManualSubmit s post reload
  else ⟨[], s⟩

/-- The value `handlePdfUpload` leaves in `uploadResult` after a failed
upload: `{ raw_text_preview, error: true }` when `errData?.raw_text_preview`
is truthy, the previous value otherwise. -/
def uploadResultAfterError (e : Option ErrorData) (previous : Option UploadResult) :
    Option UploadResult :=
  match e with
  | some d =>
    match d.raw_text_preview with
    | some preview =>
      if strTruthy preview then
        some { message := none, records := none, raw_text_preview := some preview, error := true }
      else previous
    | none => previous
  | none => previous

/-- The handler `handlePdfUpload`; `pdfFile` is the selected file, a resolved
upload carries the body `res.data`. -/
def handlePdfUpload (s : DTIState) (upload : Outcome UploadResult)
    (reload : Outcome (Option (List PriceRecord))) : Handled :=
  match s.pdfFile with
  | none => ⟨[], { s with flashMessages := [⟨"error", "Please select a PDF file."⟩] }⟩
  | some file =>
    match upload with
    | .ok data =>
      ⟨[.uploadPdf file, .getPrices],
        loadRecords reload
          { s with
            uploadResult := some data
            flashMessages := [⟨"success", textOr data.message "PDF processed successfully!"⟩]
            pdfFile := none }⟩
    | .error e =>
      ⟨[.uploadPdf file],
        { s with
          flashMessages := [⟨"error", errorText e "Failed to process PDF."⟩]
          uploadResult := uploadResultAfterError e s.uploadResult
          loading := false }⟩

end

/-- One value of the object `batches`. -/
structure Batch where
  batch_id : String
  source : Option String
  date : Option String
  records : List PriceRecord
deriving DecidableEq, Repr

/-- The property names a plain object `{}` inherits from `Object.prototype`.
Reading one of them on `batches` gives the inherited function (or, for
`__proto__`, the prototype), which is truthy and has no `records`. -/
def objectPrototypeKeys : List String :=
  ["constructor", "__proto__", "hasOwnProperty", "isPrototypeOf", "propertyIsEnumerable",
    "toLocaleString", "toString", "valueOf", "__defineGetter__", "__defineSetter__",
    "__lookupGetter__", "__lookupSetter__"]

/-- The key of a record in `batches`, `rec.batch_id || 'unknown'`. -/
def batchKey (rec : PriceRecord) : String := textOr rec.batch_id "unknown"

/-- The batch created for the first record of a key, with that record pushed:
`{ batch_id: key, source: rec.source_file, date: rec.uploaded_at, records: [rec] }`. -/
def newBatch (rec : PriceRecord) : Batch :=
  { batch_id := batchKey rec, source := rec.source_file, date := rec.uploaded_at,
    records := [rec] }

/-- Appends a record to the batch stored under `key`. -/
def pushToBatch (key : String) (rec : PriceRecord) :
    List (String × Batch) → List (String × Batch)
  | [] => []
  | (k, b) :: rest =>
    if k = key then (k, { b with records := b.records ++ [rec] }) :: rest
    else (k, b) :: pushToBatch key rec rest

/-- The body of the `forEach` that fills `batches`.  The own properties of
`batches` are kept as a list of (key, value) pairs.  When `key` is not an own
property but is inherited, `!batches[key]` is false, no batch is created and
`batches[key].records.push(rec)` throws a `TypeError`. -/
def addToBatches (batches : List (String × Batch)) (rec : PriceRecord) :
    Except String (List (String × Batch)) :=
  if (batches.map Prod.fst).contains (batchKey rec) then
    .ok (pushToBatch (batchKey rec) rec batches)
  else if objectPrototypeKeys.contains (batchKey rec) then
    .error "TypeError: Cannot read properties of undefined (reading 'push')"
  else
    .ok (batches ++ [(batchKey rec, newBatch rec)])

/-- The object `batches` built from `filteredRecords` on every render, or the
exception that the render throws. -/
def batches (filtered : List PriceRecord) : Except String (List (String × Batch)) :=
  filtered.foldlM addToBatches []

/-- The facts that hold of `batches` after the records `done` were added. -/
def BatchesInv (done : List PriceRecord) (groups : List (String × Batch)) : Prop :=
  (groups.map Prod.fst).Nodup ∧
  (∀ g ∈ groups, g.2.batch_id = g.1 ∧
    g.2.records = done.filter (fun r => decide (batchKey r = g.1)) ∧
    ∃ first, g.2.records.head? = some first ∧ g.2.source = first.source_file ∧
      g.2.date = first.uploaded_at) ∧
  (∀ r ∈ done, batchKey r ∈ groups.map Prod.fst) ∧
  (groups.map (fun g => g.2.records.length)).sum = done.length

/-- What the body of the Price Records tab shows (lines 303-380): the spinner,
the table with one row per filtered record, or the message
`No DTI price records yet.` -/
inductive RecordsBody where
  | spinner
  | table (rows : List PriceRecord)
  | emptyState
deriving DecidableEq, Repr

section
variable (toLowerCase : String → String)

/-- The conditional `loading ? ... : filteredRecords.length > 0 ? ... : ...`
of the Price Records tab. -/
def recordsTabBody (s : DTIState) : RecordsBody :=
  if s.loading then .spinner
  else if (filteredRecords toLowerCase s).length > 0 then .table (filteredRecords toLowerCase s)
  else .emptyState

/-- The Price Records tab, rendered only when `activeTab === 'records'`. -/
def recordsTab (s : DTIState) : Option RecordsBody :=
  if s.activeTab = "records" then some (recordsTabBody toLowerCase s) else none

end

/-! ## Seller dashboard (`FarmerDashboard.js`) -/

/-- A product of the farmer, as the server returns it.  The quantity is a
JSON number: it need not be whole. -/
structure Product where
  name : Option String
  category : Option String
  price : Option JSNumber
  quantity : Option ℚ
  available : Option Bool
  unit : Option String
  image_url : Option String
  description : Option String
deriving DecidableEq, Repr

/-- A line item of an order. -/
structure OrderItem where
  name : Option String
  quantity : Option Nat
deriving DecidableEq, Repr

/-- A seller order, as the server returns it. -/
structure Order where
  id : String
  status : Option String
  created_at : Option String
  buyer_name : Option String
  buyer_email : Option String
  delivery_status : Option String
  delivery_tracking_id : Option String
  items : Option (List OrderItem)
deriving DecidableEq, Repr

/-- The local state of the dashboard, one field per `useState`. -/
structure DashState where
  products : List Product
  sellerOrders : List Order
  flashMessages : List FlashMessage
  rejectionOrderId : Option String
  rejectionReason : String
deriving DecidableEq, Repr

/-- The calls of `productsAPI` and `ordersAPI`; `reason` is absent from the
body `{ status }`. -/
inductive DashRequest where
  | getProducts
  | getSellerOrders
  | updateSellerOrderStatus (orderId : String) (status : String) (reason : Option String)
deriving DecidableEq, Repr

/-- The body `res.data` of a resolved status update. -/
structure StatusData where
  success : Bool
  message : Option String
deriving DecidableEq, Repr

/-- What running a dashboard handler gives: the requests sent, in order, and
the state once every state update it scheduled has been applied. -/
structure DashHandled where
  sent : List DashRequest
  state : DashState
deriving DecidableEq, Repr

/-- The function `loadFarmerData`: two fetches in sequence inside one `try`. -/
def loadFarmerData (productsRes : Outcome (Option (List Product)))
    (ordersRes : Outcome (Option (List Order))) (s : DashState) : DashHandled :=
  match productsRes with
  | .error _ => ⟨[.getProducts], s⟩
  | .ok ps =>
    match ordersRes with
    | .error _ => ⟨[.getProducts, .getSellerOrders], { s with products := ps.getD [] }⟩
    | .ok os =>
      ⟨[.getProducts, .getSellerOrders],
        { s with products := ps.getD [], sellerOrders := os.getD [] }⟩

/-- The handler `updateOrderStatus`. -/
def updateOrderStatus (s : DashState) (orderId status : String)
    (res : Outcome (Option StatusData)) (productsRes : Outcome (Option (List Product)))
    (ordersRes : Outcome (Option (List Order))) : DashHandled :=
  if status = "rejected" then ⟨[], { s with rejectionOrderId := some orderId }⟩
  else
    match res with
    | .ok data =>
      if (data.getD ⟨false, none⟩).success then
        let loaded := loadFarmerData productsRes ordersRes
          { s with flashMessages := [⟨"success", "Order " ++ status ++ " successfully!"⟩] }
        ⟨.updateSellerOrderStatus orderId status none :: loaded.sent, loaded.state⟩
      else
        ⟨[.updateSellerOrderStatus orderId status none],
          { s with
            flashMessages :=
              [⟨"error", textOr (data.getD ⟨false, none⟩).message
                "Failed to update order status"⟩] }⟩
    | .error _ =>
      ⟨[.updateSellerOrderStatus orderId status none],
        { s with flashMessages := [⟨"error", "Failed to update order status"⟩] }⟩

/-- The handler `submitRejection`. -/
def submitRejection (s : DashState) (orderId : String)
    (res : Outcome (Option StatusData)) (productsRes : Outcome (Option (List Product)))
    (ordersRes : Outcome (Option (List Order))) : DashHandled :=
  if !strTruthy (trim s.rejectionReason) then
    ⟨[], { s with flashMessages := [⟨"error", "Cancellation reason is required."⟩] }⟩
  else
    match res with
    | .ok data =>
      if (data.getD ⟨false, none⟩).success then
        let loaded := loadFarmerData productsRes ordersRes
          { s with
            rejectionOrderId := none
            rejectionReason := ""
            flashMessages := [⟨"success", "Order rejected successfully!"⟩] }
        ⟨.updateSellerOrderStatus orderId "rejected" (some s.rejectionReason) :: loaded.sent,
          loaded.state⟩
      else
        ⟨[.updateSellerOrderStatus orderId "rejected" (some s.rejectionReason)],
          { s with
            flashMessages :=
              [⟨"error", textOr (data.getD ⟨false, none⟩).message "Failed to reject order"⟩] }⟩
    | .error _ =>
      ⟨[.updateSellerOrderStatus orderId "rejected" (some s.rejectionReason)],
        { s with flashMessages := [⟨"error", "Failed to reject order"⟩] }⟩

/-- The handler `cancelRejection`. -/
def cancelRejection (s : DashState) : DashState :=
  { s with rejectionOrderId := none, rejectionReason := "" }

/-- A button of an order card, named by the handler its `onClick` runs;
`updateOrderStatus status` stands for `() => updateOrderStatus(order.id, status)`. -/
inductive CardButton where
  | updateOrderStatus (status : String)
  | submitRejection
  | cancelRejection
  | openLalamoveBooking
deriving DecidableEq, Repr

/-- The buttons of an order card (lines 367-427) for the card's `statusValue`;
`formOpen` is the test `rejectionOrderId === order.id`. -/
def cardButtons (statusValue : String) (formOpen : Bool) : List CardButton :=
  (if statusValue = "pending" then
      [.updateOrderStatus "approved", .updateOrderStatus "rejected"] ++
        (if formOpen then [.submitRejection, .cancelRejection] else [])
    else []) ++
  (if statusValue = "approved" then [.updateOrderStatus "ready_for_ship"] else []) ++
  (if statusValue = "ready_for_ship" then
      [.openLalamoveBooking, .updateOrderStatus "picked_up"]
    else []) ++
  (if statusValue = "picked_up" then [.updateOrderStatus "on_the_way"] else []) ++
  (if statusValue = "on_the_way" then [.updateOrderStatus "delivered"] else [])

/-- The status a button asks for, when it asks for one: the argument of
`updateOrderStatus`, and `rejected` for the submit button of the reason form. -/
def CardButton.requestedStatus : CardButton → Option String
  | .updateOrderStatus status => some status
  | .submitRejection => some "rejected"
  | .cancelRejection => none
  | .openLalamoveBooking => none

/-- The statuses the buttons of a card ask for, in the order of the buttons. -/
def offeredStatuses (statusValue : String) (formOpen : Bool) : List String :=
  (cardButtons statusValue formOpen).filterMap CardButton.requestedStatus

section
variable (toLowerCase : String → String)

/-- The constant `statusValue` of an order card,
`(order.status || 'pending').toLowerCase()`. -/
def statusValue (order : Order) : String :=
  toLowerCase (textOr order.status "pending")

/-- The buttons the dashboard renders on the card of `order`. -/
def orderCardButtons (s : DashState) (order : Order) : List CardButton :=
  cardButtons (statusValue toLowerCase order) (decide (s.rejectionOrderId = some order.id))

end

/-- The ranking of the statuses of the order workflow. -/
def statusRank (status : String) : Option Nat :=
  if status = "pending" then some 0
  else if status = "approved" then some 1
  else if status = "ready_for_ship" then some 2
  else if status = "picked_up" then some 3
  else if status = "on_the_way" then some 4
  else if status = "delivered" then some 5
  else none

/-- One step of the workflow: `b` is a status that a button of a card in
status `a` asks for, the reason form being open or not. -/
def offers (a b : String) : Prop :=
  b ∈ offeredStatuses a true ∨ b ∈ offeredStatuses a false

/-- The number of steps of the workflow that can still follow a status. -/
def stepsLeft (status : String) : Nat :=
  if status = "pending" then 5
  else if status = "approved" then 4
  else if status = "ready_for_ship" then 3
  else if status = "picked_up" then 2
  else if status = "on_the_way" then 1
  else 0

/-- The test `p.available !== false && p.quantity > 0`; a missing quantity
compares as not greater than 0. -/
def isAvailable (p : Product) : Bool :=
  p.available ≠ some false &&
    (match p.quantity with
      | some q => decide (q > 0)
      | none => false)

/-- The statistic `availableCount` shown on the page (line 203). -/
def availableCount (products : List Product) : Int :=
  ((products.filter isAvailable).length : Int)

/-- The statistic `unavailableCount` shown on the page (line 204). -/
def unavailableCount (products : List Product) : Int :=
  (products.length : Int) - availableCount products

/-- The `data` array of the doughnut chart that `initCharts` builds (lines
36-59) from its own `availableCount` and `unavailableCount`; there is no chart
when the chart library or the canvas is missing. -/
def availabilityChartData (chartLibrary canvas : Bool) (products : List Product) :
    Option (List Int) :=
  if !chartLibrary then none
  else
    let availableCount : Int := ((products.filter isAvailable).length : Int)
    let unavailableCount : Int := (products.length : Int) - availableCount
    if canvas then some [availableCount, unavailableCount] else none

/-- A value stored in `categoryCount`: a number, or the text that `+ 1` makes
of a value that is not a number, namely the value `key` inherits from
`Object.prototype` turned to text, followed by `ones` characters `1`. -/
inductive CountValue where
  | number (n : Nat)
  | text (inheritedKey : String) (ones : Nat)
deriving DecidableEq, Repr

/-- The key of a product in `categoryCount`, `p.category || 'Other'`. -/
def categoryKey (p : Product) : String := textOr p.category "Other"

/-- The value `(value || 0) + 1` for an own property `value`; a stored number
is at least 1 and a stored text is not empty, so both are truthy. -/
def CountValue.increment : CountValue → CountValue
  | .number n => .number (n + 1)
  | .text key ones => .text key (ones + 1)

/-- Replaces the value stored under `key` by its increment. -/
def incrementCount (key : String) : List (String × CountValue) → List (String × CountValue)
  | [] => []
  | (k, v) :: rest =>
    if k = key then (k, v.increment) :: rest else (k, v) :: incrementCount key rest

/-- The body of the `forEach` that fills `categoryCount` (line 46).  The own
properties of `categoryCount` are kept as a list of (key, value) pairs in the
order of their creation (the order in which `Object.keys` lists keys that are
not integers).  When `key` is not an own property but is inherited, the
inherited value is truthy and `+ 1` appends `1` to its text; the assignment
to `__proto__` of a value that is not an object is ignored. -/
def addToCategoryCount (counts : List (String × CountValue)) (p : Product) :
    List (String × CountValue) :=
  if (counts.map Prod.fst).contains (categoryKey p) then incrementCount (categoryKey p) counts
  else if categoryKey p = "__proto__" then counts
  else if objectPrototypeKeys.contains (categoryKey p) then
    counts ++ [(categoryKey p, .text (categoryKey p) 1)]
  else counts ++ [(categoryKey p, .number 1)]

/-- The object `categoryCount` that `initCharts` builds (lines 44-47); its
keys and values are the labels and the data of the category bar chart. -/
def categoryCount (products : List Product) : List (String × CountValue) :=
  products.foldl addToCategoryCount []

/-- The number a stored value stands for on the chart; a text is no number
and counts for nothing. -/
def CountValue.toNat : CountValue → Nat
  | .number n => n
  | .text _ _ => 0

/-- The facts that hold of `categoryCount` after the products `done` were
counted. -/
def CategoryCountInv (done : List Product) (counts : List (String × CountValue)) : Prop :=
  (counts.map Prod.fst).Nodup ∧
  (∀ c ∈ counts,
    c.2 = .number (done.countP (fun p => decide (categoryKey p = c.1))) ∧
    1 ≤ done.countP (fun p => decide (categoryKey p = c.1))) ∧
  (∀ p ∈ done, categoryKey p ∈ counts.map Prod.fst) ∧
  (counts.map (fun c => c.2.toNat)).sum = done.length

/-- The constant `isOut` of a product card, `!product.available ||
product.quantity <= 0`; a missing quantity compares as not at most 0. -/
def isOut (p : Product) : Bool :=
  p.available ≠ some true ||
    (match p.quantity with
      | some q => decide (q ≤ 0)
      | none => false)

/-- The constant `isLow` of a product card, `!isOut && product.quantity <= 10`. -/
def isLow (p : Product) : Bool :=
  !isOut p &&
    (match p.quantity with
      | some q => decide (q ≤ 10)
      | none => false)

/-- The stock badges of a product card. -/
inductive StockBadge where
  | outOfStock
  | lowStock
  | inStock
deriving DecidableEq, Repr

/-- The content of `<div className="stock-badges">` (lines 279-287): the
badges the card shows. -/
def stockBadges (p : Product) : List StockBadge :=
  if isOut p then [.outOfStock] else if isLow p then [.lowStock] else [.inStock]

/-- The `onChange` of the reason textarea, `setRejectionReason(e.target.value)`. -/
def setRejectionReason (s : DashState) (value : String) : DashState :=
  { s with rejectionReason := value }

section
variable (getTime : String → Option Int)

/-- The constants `aDate` and `bDate` of the sort comparator,
`new Date(order.created_at || 0).getTime()`; `getTime text` is
`new Date(text).getTime()`, `none` standing for `NaN` (an invalid date). -/
def orderTime (order : Order) : Option Int :=
  match order.created_at with
  | some text => if strTruthy text then getTime text else some 0
  | none => some 0

/-- Whether the comparator `(a, b) => bDate - aDate` does not put `b` before
`a`: its value is negative or zero, or `NaN`, which `sort` reads as zero. -/
def newerOrEqual (a b : Order) : Bool :=
  match orderTime getTime a, orderTime getTime b with
  | some aDate, some bDate => decide (bDate - aDate ≤ 0)
  | _, _ => true

/-- The derived list `sortedSellerOrders`, `[...sellerOrders].sort(comparator)`.
`Array.prototype.sort` is stable, and with a consistent comparator (no `NaN`)
its result is the one of any stable sort; insertion sort stands for it. -/
def sortedSellerOrders (sellerOrders : List Order) : List Order :=
  sellerOrders.insertionSort (fun a b => newerOrEqual getTime a b = true)

end

/-! ## Navigation bar (`Navbar.js`) -/

/-- The local state of the navigation bar, one field per `useState`. -/
structure NavState where
  hideHeader : Bool
  stickyNav : Bool
  dropdownOpen : Bool
  mobileMenuOpen : Bool
deriving DecidableEq, Repr

/-- The state of a freshly mounted navigation bar. -/
def initialNavState : NavState := ⟨false, false, false, false⟩

/-- The listener `handleScroll`; `scrollY` is `window.scrollY`. -/
def handleScroll (scrollY : ℚ) (s : NavState) : NavState :=
  if scrollY > 30 then { s with hideHeader := true, stickyNav := true }
  else { s with hideHeader := false, stickyNav := false }

/-- The handler `handleProfileDropdown`. -/
def handleProfileDropdown (s : NavState) : NavState :=
  { s with dropdownOpen := !s.dropdownOpen }

/-- The listener `handleClickOutside`.  An element is given by its `contains`
test; `dropdownRef` and `buttonRef` are the `current` values of the two refs,
`none` while the element is not mounted. -/
def handleClickOutside {ν : Type} (dropdownRef buttonRef : Option (ν → Bool)) (target : ν)
    (s : NavState) : NavState :=
  match dropdownRef, buttonRef with
  | some dropdown, some button =>
    if !button target && !dropdown target then { s with dropdownOpen := false } else s
  | _, _ => s

/-- What can happen to a mounted navigation bar. -/
inductive NavEvent (ν : Type) where
  | scroll (scrollY : ℚ)
  | profileButtonClick
  | documentClick (dropdownRef buttonRef : Option (ν → Bool)) (target : ν)
  | dropdownItemClick
  | mobileMenuToggle

/-- The state after one event; a dropdown item runs `setDropdownOpen(false)`,
the mobile toggle `setMobileMenuOpen(!mobileMenuOpen)`. -/
def navStep {ν : Type} (s : NavState) : NavEvent ν → NavState
  | .scroll scrollY => handleScroll scrollY s
  | .profileButtonClick => handleProfileDropdown s
  | .documentClick dropdownRef buttonRef target =>
    handleClickOutside dropdownRef buttonRef target s
  | .dropdownItemClick => { s with dropdownOpen := false }
  | .mobileMenuToggle => { s with mobileMenuOpen := !s.mobileMenuOpen }

/-- The state after a sequence of events, starting from the mounted state. -/
def navRun {ν : Type} (events : List (NavEvent ν)) : NavState :=
  events.foldl navStep initialNavState

/-! ## Sample states -/

/-- Lower-casing of the letters `A` to `Z`; on ASCII text it is what
`String.prototype.toLowerCase` computes. -/
def asciiLowerCase (s : String) : String := String.mk (s.toList.map Char.toLower)

/-- A bare price record with the given id and product name. -/
def sampleRecord (id name : String) : PriceRecord :=
  { _id := some id, product_name := some name, price_low := none, price_high := none,
    average_price := none, unit := none, source_file := none, batch_id := none,
    uploaded_at := none }

/-- The state of the screen after a load of `records`, with the given search
text and selection. -/
def sampleState (records : List PriceRecord) (searchQuery : String)
    (selected : List (Option String)) : DTIState :=
  { records := records, flashMessages := [], loading := false, activeTab := "records",
    manualForm := blankForm, bulkRows := [blankRow], pdfFile := none, uploadResult := none,
    searchQuery := searchQuery, bulkDeleteMode := true,
    selectedIds := JSSet.ofArray selected }

/-- Two records are loaded and both were selected before the search text
`apple` hid the second one. -/
def hiddenSelectionState : DTIState :=
  sampleState [sampleRecord "a" "apple", sampleRecord "b" "banana"] "apple" [some "a", some "b"]

/-- Records `a` and `b` were selected, then a reload brought `b` and `c`. -/
def staleSelectionState : DTIState :=
  sampleState [sampleRecord "b" "banana", sampleRecord "c" "cherry"] "" [some "a", some "b"]

/-- The whole list of two records is shown and selected. -/
def fullSelectionState : DTIState :=
  sampleState [sampleRecord "a" "apple", sampleRecord "b" "banana"] "" [some "a", some "b"]

/-- The manual form is untouched: no product name, no price. -/
def blankFormState : DTIState := sampleState [] "" []

/-- The manual form holds a product name and a low price, the high price is
left empty. -/
def filledFormState : DTIState :=
  { sampleState [] "" [] with manualForm := ⟨"Tomato", "50.00", "", "kg"⟩ }

/-- The manual form holds a product name and a low price of 0. -/
def zeroLowState : DTIState :=
  { sampleState [] "" [] with manualForm := ⟨"Tomato", "0", "", "kg"⟩ }

/-- Three draft rows: a complete one, one without a price, one whose high
price is not a number. -/
def draftRowsState : DTIState :=
  { sampleState [] "" [] with
    bulkRows := [⟨"Tomato", "50", "65", "kg"⟩, ⟨"Rice", "", "40", "kg"⟩, ⟨"Egg", "8", "abc", "piece"⟩] }

/-- A bare order with the given id and status. -/
def sampleOrder (id : String) (status : Option String) : Order :=
  { id := id, status := status, created_at := none, buyer_name := none, buyer_email := none,
    delivery_status := none, delivery_tracking_id := none, items := none }

/-- A dashboard with one pending order whose reason form is open and holds
the given text. -/
def rejectingState (reason : String) : DashState :=
  { products := [], sellerOrders := [sampleOrder "o1" (some "pending")], flashMessages := [],
    rejectionOrderId := some "o1", rejectionReason := reason }

/-- Three records are loaded, the search text `an` shows two of them, and a
record hidden by the search is selected. -/
def searchingState : DTIState :=
  sampleState [sampleRecord "a" "Banana", sampleRecord "b" "Mango", sampleRecord "c" "Rice"]
    "an" [some "c"]

/-- Two records are loaded and the first one is the whole selection. -/
def singleSelectionState : DTIState :=
  sampleState [sampleRecord "a" "apple", sampleRecord "b" "banana"] "" [some "a"]

/-- One record is loaded and a PDF file is selected for upload. -/
def uploadingState : DTIState :=
  { sampleState [sampleRecord "a" "apple"] "" [] with pdfFile := some "bulletin.pdf" }

/-- A product with the given name, stock and availability flag. -/
def sampleProduct (name : String) (quantity : ℚ) (available : Bool) : Product :=
  { name := some name, category := none, price := none, quantity := some quantity,
    available := some available, unit := none, image_url := none, description := none }

/-- A dashboard that has loaded nothing yet. -/
def emptyDashState : DashState :=
  { products := [], sellerOrders := [], flashMessages := [], rejectionOrderId := none,
    rejectionReason := "" }

/-- A record whose batch id is the name of a property that every object
inherits. -/
def inheritedKeyRecord : PriceRecord :=
  { sampleRecord "a" "apple" with batch_id := some "constructor" }

/-- Three products: one in stock, one sold out, one switched off. -/
def threeProducts : List Product :=
  [sampleProduct "Tomato" 5 true, sampleProduct "Rice" 0 true, sampleProduct "Egg" 12 false]

/-- The manual form holds a high price of exactly 0. -/
def zeroHighState : DTIState :=
  { sampleState [] "" [] with manualForm := ⟨"Tomato", "50", "0", "kg"⟩ }

/-- Two draft rows: one with a high price of exactly 0, one with a high price
lower than the low price. -/
def zeroHighRowsState : DTIState :=
  { sampleState [] "" [] with
    bulkRows := [⟨"Tomato", "50", "0", "kg"⟩, ⟨"Rice", "50", "10", "kg"⟩] }

/-- The manual form holds a high price lower than the low price. -/
def lowerHighState : DTIState :=
  { sampleState [] "" [] with manualForm := ⟨"Tomato", "50", "10", "kg"⟩ }

/-- A clock for the samples: two known dates, everything else invalid. -/
def sampleGetTime (text : String) : Option Int :=
  if text = "2024-01-01" then some 1704067200000
  else if text = "2024-01-02" then some 1704153600000
  else none

/-- Four orders: an old one, a new one, one without a date, and a second new
one. -/
def fourOrders : List Order :=
  [{ sampleOrder "o1" none with created_at := some "2024-01-01" },
   { sampleOrder "o2" none with created_at := some "2024-01-02" },
   sampleOrder "o3" none,
   { sampleOrder "o4" none with created_at := some "2024-01-02" }]

/-- An available product with a stock of half a unit. -/
def halfUnitProduct : Product := sampleProduct "Herbs" (1 / 2) true

/-- A product whose category is the name of a property that every object
inherits. -/
def inheritedCategoryProduct : Product :=
  { sampleProduct "Seeds" 3 true with category := some "constructor" }

/-! ## Facts about `JSSet` -/

theorem JSSet.ext_values {α : Type} {s t : JSSet α} (h : s.values = t.values) : s = t := by
  cases s; cases t; cases h; rfl

namespace JSSet

variable {α : Type} [DecidableEq α]

theorem has_iff (s : JSSet α) (x : α) : s.has x = true ↔ x ∈ s.values := by
  simp [has]

theorem mem_add (s : JSSet α) (x y : α) :
    y ∈ (s.add x).values ↔ y ∈ s.values ∨ y = x := by
  unfold add
  split
  · constructor
    · exact Or.inl
    · rintro (h | rfl)
      · exact h
      · assumption
  · simp

theorem mem_delete (s : JSSet α) (x y : α) :
    y ∈ (s.delete x).values ↔ y ∈ s.values ∧ y ≠ x := by
  simp [delete]

theorem mem_foldl_add (xs : List α) (s : JSSet α) (y : α) :
    y ∈ (xs.foldl add s).values ↔ y ∈ s.values ∨ y ∈ xs := by
  induction xs generalizing s with
  | nil => simp
  | cons x xs ih =>
    rw [List.foldl_cons, ih, mem_add, List.mem_cons]
    tauto

theorem mem_ofArray (xs : List α) (y : α) : y ∈ (ofArray xs).values ↔ y ∈ xs := by
  simp [ofArray, mem_foldl_add, empty]

end JSSet

/-! ## Bulk delete: which request is sent -/

section
variable (toLowerCase : String → String)

theorem filteredRecords_sublist (s : DTIState) :
    (filteredRecords toLowerCase s).Sublist s.records := by
  unfold filteredRecords
  exact List.filter_sublist _

theorem allSelected_iff (s : DTIState) :
    allSelected toLowerCase s = true ↔
      s.selectedIds.size = (filteredRecords toLowerCase s).length ∧
        (filteredRecords toLowerCase s).length = s.records.length := by
  simp [allSelected]

/-- C1: with a non-empty selection and a confirmed prompt, `handleBulkDelete`
sends exactly one bulk-delete request, followed by the reload when the
deletion succeeded.  The request is delete-all (empty id list,
`deleteAll = true`) when the number of selected ids equals the number of
filtered records and that equals the number of loaded records; in every
other case it carries no `deleteAll` flag and an id list without repetition
whose members are exactly the selected ids. -/
theorem handleBulkDelete_request (s : DTIState) (confirm : String → Bool)
    (del : Outcome Unit) (reload : Outcome (Option (List PriceRecord)))
    (hsel : s.selectedIds.size ≠ 0) (hconf : confirm (bulkDeleteMsg toLowerCase s) = true) :
    (s.selectedIds.size = (filteredRecords toLowerCase s).length ∧
        (filteredRecords toLowerCase s).length = s.records.length →
      (handleBulkDelete toLowerCase s confirm del reload).sent =
        DtiRequest.bulkDelete [] (some true) ::
          (match del with
            | .ok _ => [DtiRequest.getPrices]
            | .error _ => [])) ∧
    (¬(s.selectedIds.size = (filteredRecords toLowerCase s).length ∧
        (filteredRecords toLowerCase s).length = s.records.length) →
      ∃ ids : List (Option String),
        (handleBulkDelete toLowerCase s confirm del reload).sent =
          DtiRequest.bulkDelete ids none ::
            (match del with
              | .ok _ => [DtiRequest.getPrices]
              | .error _ => []) ∧
        ids.Nodup ∧ ∀ id, id ∈ ids ↔ s.selectedIds.has id = true) := by
  constructor
  · intro h
    have hall : allSelected toLowerCase s = true := (allSelected_iff toLowerCase s).2 h
    unfold handleBulkDelete
    cases del <;> simp [hsel, hconf, hall]
  · intro h
    have hall : allSelected toLowerCase s = false := by
      rw [← Bool.not_eq_true, allSelected_iff]
      exact h
    refine ⟨s.selectedIds.values, ?_, s.selectedIds.nodup, fun id => (JSSet.has_iff _ id).symm⟩
    unfold handleBulkDelete
    cases del <;> simp [hsel, hconf, hall, JSSet.toArray]

/-- Witness for C1: the whole list of two records is shown and selected, the
prompt is confirmed and the deletion succeeds. -/
theorem handleBulkDelete_request_witness :
    (handleBulkDelete asciiLowerCase fullSelectionState (fun _ => true) (.ok ()) (.ok none)).sent =
      [DtiRequest.bulkDelete [] (some true), DtiRequest.getPrices] :=
  (handleBulkDelete_request asciiLowerCase fullSelectionState (fun _ => true) (.ok ()) (.ok none)
    (by decide) rfl).1 (by decide)

/-- Under distinct record ids and a selection made of ids of filtered records,
the count test `allSelected` says that every loaded record is selected. -/
theorem allSelected_iff_covers (s : DTIState)
    (hdistinct : (s.records.map (fun r => r._id)).Nodup)
    (hvisible : ∀ id ∈ s.selectedIds.toArray,
      id ∈ (filteredRecords toLowerCase s).map (fun r => r._id)) :
    allSelected toLowerCase s = true ↔ ∀ r ∈ s.records, s.selectedIds.has r._id = true := by
  have hsub := filteredRecords_sublist toLowerCase s
  have hsubIds : ((filteredRecords toLowerCase s).map (fun r => r._id)).Sublist
      (s.records.map (fun r => r._id)) := hsub.map _
  have hselF : s.selectedIds.values ⊆ (filteredRecords toLowerCase s).map (fun r => r._id) :=
    fun id hid => hvisible id hid
  have hlenSF : s.selectedIds.values.length ≤ (filteredRecords toLowerCase s).length := by
    have := (s.selectedIds.nodup.subperm hselF).length_le
    simpa using this
  rw [allSelected_iff]
  constructor
  · rintro ⟨h1, h2⟩ r hr
    have hFR : filteredRecords toLowerCase s = s.records := hsub.eq_of_length h2
    have hselR : s.selectedIds.values ⊆ s.records.map (fun r => r._id) := by
      rw [← hFR]
      exact hselF
    have hperm : (s.selectedIds.values).Perm (s.records.map (fun r => r._id)) := by
      apply (s.selectedIds.nodup.subperm hselR).perm_of_length_le
      simp only [List.length_map]
      have : s.selectedIds.values.length = s.records.length := by
        have := h1
        unfold JSSet.size at this
        omega
      omega
    rw [JSSet.has_iff]
    exact hperm.symm.subset (List.mem_map_of_mem _ hr)
  · intro hcov
    have hRS : s.records.map (fun r => r._id) ⊆ s.selectedIds.values := by
      intro id hid
      obtain ⟨r, hr, rfl⟩ := List.mem_map.1 hid
      exact (JSSet.has_iff _ _).1 (hcov r hr)
    have hlenRS : s.records.length ≤ s.selectedIds.values.length := by
      have := (hdistinct.subperm hRS).length_le
      simpa using this
    have hlenFR : (filteredRecords toLowerCase s).length ≤ s.records.length := hsub.length_le
    unfold JSSet.size
    omega

/-- C2, counterexample: a selection that covers every loaded record does not
make `handleBulkDelete` send delete-all, and a selection that misses a loaded
record does not keep it from doing so.  In `hiddenSelectionState` both loaded
records are selected while the search text shows one: the explicit id list is
sent.  In `staleSelectionState` record `c` is not selected: delete-all is
sent. -/
theorem handleBulkDelete_covers_counterexample :
    ((∀ r ∈ hiddenSelectionState.records, hiddenSelectionState.selectedIds.has r._id = true) ∧
      (handleBulkDelete asciiLowerCase hiddenSelectionState (fun _ => true) (.ok ())
          (.ok none)).sent =
        [DtiRequest.bulkDelete [some "a", some "b"] none, DtiRequest.getPrices]) ∧
    (¬(∀ r ∈ staleSelectionState.records, staleSelectionState.selectedIds.has r._id = true) ∧
      (handleBulkDelete asciiLowerCase staleSelectionState (fun _ => true) (.ok ())
          (.ok none)).sent =
        [DtiRequest.bulkDelete [] (some true), DtiRequest.getPrices]) := by
  refine ⟨⟨by decide, by decide⟩, ⟨by decide, by decide⟩⟩

/-- C2, amended: when the loaded records have pairwise distinct ids and every
selected id is the id of a currently filtered record, `handleBulkDelete`
(non-empty selection, confirmed prompt) sends the delete-all request if every
loaded record is selected, and the explicit list of the selected ids
otherwise. -/
theorem handleBulkDelete_covers (s : DTIState) (confirm : String → Bool)
    (del : Outcome Unit) (reload : Outcome (Option (List PriceRecord)))
    (hsel : s.selectedIds.size ≠ 0) (hconf : confirm (bulkDeleteMsg toLowerCase s) = true)
    (hdistinct : (s.records.map (fun r => r._id)).Nodup)
    (hvisible : ∀ id ∈ s.selectedIds.toArray,
      id ∈ (filteredRecords toLowerCase s).map (fun r => r._id)) :
    ((∀ r ∈ s.records, s.selectedIds.has r._id = true) →
      (handleBulkDelete toLowerCase s confirm del reload).sent.head? =
        some (DtiRequest.bulkDelete [] (some true))) ∧
    (¬(∀ r ∈ s.records, s.selectedIds.has r._id = true) →
      (handleBulkDelete toLowerCase s confirm del reload).sent.head? =
        some (DtiRequest.bulkDelete s.selectedIds.toArray none)) := by
  have hiff := allSelected_iff_covers toLowerCase s hdistinct hvisible
  constructor
  · intro h
    have hall : allSelected toLowerCase s = true := hiff.2 h
    unfold handleBulkDelete
    cases del <;> simp [hsel, hconf, hall]
  · intro h
    have hall : allSelected toLowerCase s = false := by
      rw [← Bool.not_eq_true, hiff]
      exact h
    unfold handleBulkDelete
    cases del <;> simp [hsel, hconf, hall]

/-- Witness for C2, amended: the whole list of two records is shown and
selected. -/
theorem handleBulkDelete_covers_witness :
    (handleBulkDelete asciiLowerCase fullSelectionState (fun _ => true) (.error none)
        (.ok none)).sent.head? =
      some (DtiRequest.bulkDelete [] (some true)) :=
  (handleBulkDelete_covers asciiLowerCase fullSelectionState (fun _ => true) (.error none)
    (.ok none) (by decide) rfl (by decide) (by decide)).1 (by decide)

end

/-! ## Manual and bulk entry -/

theorem isDigit_not_ws (c : Char) (h : c.isDigit = true) : isWhiteSpace c = false := by
  simp only [Char.isDigit, Bool.and_eq_true, decide_eq_true_eq] at h
  have h1 : 48 ≤ c.toNat := by
    have := h.1
    exact this
  have h2 : c.toNat ≤ 57 := h.2
  simp only [isWhiteSpace]
  simp
  omega

theorem validUnsigned_head (body : List Char) (h : validUnsigned body = true) :
    ∃ c rest, body = c :: rest ∧ (c.isDigit = true ∨ c = '.') := by
  cases body with
  | nil => simp [validUnsigned, validExponent] at h
  | cons c rest =>
    refine ⟨c, rest, rfl, ?_⟩
    by_cases hd : c.isDigit = true
    · exact Or.inl hd
    · right
      by_contra hne
      simp [validUnsigned, List.dropWhile, List.takeWhile, hd] at h
      split at h
      · rename_i heq
        simp at heq
        exact hne heq.1
      · simp at h



theorem parseUnsigned_ne_nan (negative : Bool) (body : List Char)
    (h : validUnsigned body = true) : parseUnsigned negative body ≠ .nan := by
  obtain ⟨c, rest, rfl, hc⟩ := validUnsigned_head body h
  have hinf : "Infinity".toList.isPrefixOf (c :: rest) = false := by
    have hI : ¬ c = 'I' := by
      rcases hc with hc | hc
      · intro e; rw [e] at hc; exact absurd hc (by decide)
      · rw [hc]; decide
    show ('I' :: "nfinity".toList).isPrefixOf (c :: rest) = false
    simp [List.isPrefixOf, hI, Ne.symm hI]
  unfold parseUnsigned
  rw [hinf]
  simp only [Bool.false_eq_true, if_false]
  unfold validUnsigned at h
  split at h
  · rename_i r heq
    simp only [Bool.and_eq_true, Bool.not_eq_true', List.isEmpty_eq_false] at h
    have : r.takeWhile Char.isDigit ≠ [] := by
      intro e; rw [e] at h; simp at h
    simp [this]
  · rename_i hnot
    simp only [Bool.and_eq_true, Bool.not_eq_true'] at h
    have : (c :: rest).takeWhile Char.isDigit ≠ [] := by
      intro e; rw [e] at h; simp at h
    simp [this]

theorem parseFloat_ne_nan (text : String) (h : validFloatingPoint text = true) :
    parseFloat text ≠ .nan := by
  unfold validFloatingPoint at h
  unfold parseFloat
  split at h
  · rename_i r heq
    rw [heq]
    have : List.dropWhile isWhiteSpace ('-' :: r) = '-' :: r := by
      simp [List.dropWhile, show isWhiteSpace '-' = false by decide]
    rw [this]
    exact parseUnsigned_ne_nan true r h
  · rename_i hnot
    obtain ⟨c, rest, hbody, hc⟩ := validUnsigned_head _ h
    have hws : isWhiteSpace c = false := by
      rcases hc with hc | hc
      · exact isDigit_not_ws c hc
      · rw [hc]; decide
    have hdrop : List.dropWhile isWhiteSpace text.toList = c :: rest := by
      rw [hbody]; simp [List.dropWhile, hws]
    rw [hdrop]
    have hminus : c ≠ '-' := by
      intro e; exact hnot rest (by rw [hbody, e])
    have hplus : c ≠ '+' := by
      rcases hc with hc | hc
      · intro e; rw [e] at hc; exact absurd hc (by decide)
      · rw [hc]; decide
    split
    · rename_i r heq
      exact absurd (List.cons.inj heq).1 hminus
    · rename_i r heq
      exact absurd (List.cons.inj heq).1 hplus
    · rw [← hbody]; exact parseUnsigned_ne_nan false _ h

theorem parseFloat_of_isBlank (text : String) (h : isBlank text = true) :
    parseFloat text = .nan := by
  have : List.dropWhile isWhiteSpace text.toList = [] := by
    rw [List.dropWhile_eq_nil_iff]
    simpa [isBlank] using h
  unfold parseFloat
  rw [this]
  decide

theorem or_of_nan (a b : JSNumber) (h : a = .nan) : a.or b = b := by
  subst h
  rfl

theorem validRows_eq (rows : List BulkRow) :
    validRows rows = rows.filter (fun r => decide (r.product_name ≠ "" ∧ r.price_low ≠ "")) := by
  unfold validRows
  congr 1
  funext r
  simp [strTruthy]

/-- C3: the records `handleBulkSubmit` posts correspond, in the original
order, to exactly the rows whose `product_name` and `price_low` are both
non-empty, with `product_name` and `unit` passed through unchanged: when no
row is complete nothing is sent, and otherwise one `bulkEntry` request is
sent (followed by the reload when it succeeded) whose records, read as
(name, unit) pairs, are those of the complete rows in the same order. -/
theorem handleBulkSubmit_posts_valid_rows (s : DTIState) (post : Outcome (Option String))
    (reload : Outcome (Option (List PriceRecord))) :
    ((∀ r ∈ s.bulkRows, r.product_name = "" ∨ r.price_low = "") →
      (handleBulkSubmit s post reload).sent = []) ∧
    ((∃ r ∈ s.bulkRows, r.product_name ≠ "" ∧ r.price_low ≠ "") →
      ∃ recs : List PriceEntry,
        (handleBulkSubmit s post reload).sent =
          DtiRequest.bulkEntry recs ::
            (match post with
              | .ok _ => [DtiRequest.getPrices]
              | .error _ => []) ∧
        recs.map (fun e => (e.product_name, e.unit)) =
          (s.bulkRows.filter (fun r => decide (r.product_name ≠ "" ∧ r.price_low ≠ ""))).map
            (fun r => (r.product_name, r.unit))) := by
  constructor
  · intro h
    have hnil : validRows s.bulkRows = [] := by
      rw [validRows_eq, List.filter_eq_nil_iff]
      intro r hr
      have := h r hr
      simp only [decide_eq_true_eq]
      tauto
    simp [handleBulkSubmit, hnil]
  · rintro ⟨r, hr, hr1, hr2⟩
    have hne : (validRows s.bulkRows).length ≠ 0 := by
      rw [validRows_eq]
      intro h0
      have hmem : r ∈ s.bulkRows.filter (fun r => decide (r.product_name ≠ "" ∧ r.price_low ≠ "")) :=
        List.mem_filter.2 ⟨hr, by simp [hr1, hr2]⟩
      rw [List.length_eq_zero] at h0
      rw [h0] at hmem
      simp at hmem
    refine ⟨(validRows s.bulkRows).map bulkEntryPayload, ?_, ?_⟩
    · unfold handleBulkSubmit
      cases post <;> simp [hne]
    · rw [← validRows_eq, List.map_map]
      rfl

/-- Witness for C3: of three draft rows the one without a price is dropped. -/
theorem handleBulkSubmit_posts_valid_rows_witness :
    ∃ recs : List PriceEntry,
      (handleBulkSubmit draftRowsState (.ok none) (.ok none)).sent =
        [DtiRequest.bulkEntry recs, DtiRequest.getPrices] ∧
      recs.map (fun e => (e.product_name, e.unit)) = [("Tomato", "kg"), ("Egg", "piece")] :=
  (handleBulkSubmit_posts_valid_rows draftRowsState (.ok none) (.ok none)).2
    ⟨⟨"Tomato", "50", "65", "kg"⟩, by decide, by decide, by decide⟩

/-- C4: whenever the `price_high` text is blank or does not parse as a number
(`parseFloat` gives `NaN`), the `price_high` posted equals the posted
`price_low`.  `handleManualSubmit` posts one record, for which this holds.
`handleBulkSubmit`, when some row is complete, posts one `bulkEntry` request
with one record per complete row, in order, and this holds for each record
taken with the row it was built from; it posts no other `bulkEntry`. -/
theorem price_high_defaults_to_price_low (s : DTIState) (post : Outcome Unit)
    (bulkPost : Outcome (Option String)) (reload : Outcome (Option (List PriceRecord))) :
    (∃ e : PriceEntry,
      (handleManualSubmit s post reload).sent.head? = some (DtiRequest.manualEntry e) ∧
      (isBlank s.manualForm.price_high = true ∨ parseFloat s.manualForm.price_high = .nan →
        e.price_high = e.price_low)) ∧
    (validRows s.bulkRows ≠ [] →
      ∃ recs : List PriceEntry,
        (handleBulkSubmit s bulkPost reload).sent.head? = some (DtiRequest.bulkEntry recs) ∧
        List.Forall₂
          (fun (r : BulkRow) (e : PriceEntry) =>
            e.product_name = r.product_name ∧
            (isBlank r.price_high = true ∨ parseFloat r.price_high = .nan →
              e.price_high = e.price_low))
          (validRows s.bulkRows) recs) ∧
    (∀ recs : List PriceEntry,
      DtiRequest.bulkEntry recs ∈ (handleBulkSubmit s bulkPost reload).sent →
      List.Forall₂
        (fun (r : BulkRow) (e : PriceEntry) =>
          isBlank r.price_high = true ∨ parseFloat r.price_high = .nan →
            e.price_high = e.price_low)
        (validRows s.bulkRows) recs) := by
  refine ⟨?_, ?_, ?_⟩
  · refine ⟨manualEntryPayload s.manualForm, ?_, ?_⟩
    · unfold handleManualSubmit
      cases post <;> rfl
    · intro h
      have hnan : parseFloat s.manualForm.price_high = .nan :=
        h.elim (parseFloat_of_isBlank _) id
      simp [manualEntryPayload, or_of_nan _ _ hnan]
  · intro hrows
    refine ⟨(validRows s.bulkRows).map bulkEntryPayload, ?_, ?_⟩
    · unfold handleBulkSubmit
      cases bulkPost <;> simp [hrows]
    · rw [List.forall₂_map_right_iff, List.forall₂_same]
      intro r _
      refine ⟨rfl, fun h => ?_⟩
      have hnan : parseFloat r.price_high = .nan := h.elim (parseFloat_of_isBlank _) id
      simp [bulkEntryPayload, or_of_nan _ _ hnan]
  · intro recs hmem
    have hrecs : recs = (validRows s.bulkRows).map bulkEntryPayload := by
      unfold handleBulkSubmit at hmem
      split at hmem
      · simp at hmem
      · cases bulkPost <;> simpa using hmem
    rw [hrecs, List.forall₂_map_right_iff, List.forall₂_same]
    intro r _ h
    have hnan : parseFloat r.price_high = .nan := h.elim (parseFloat_of_isBlank _) id
    simp [bulkEntryPayload, or_of_nan _ _ hnan]

/-- Witness for C4: a manual form whose high price was left empty, and three
draft rows of which the one for Egg, with the high price `abc`, is posted with
its low price 8 as high price. -/
theorem price_high_defaults_to_price_low_witness :
    (∃ e : PriceEntry,
      (handleManualSubmit filledFormState (.ok ()) (.ok none)).sent.head? =
        some (DtiRequest.manualEntry e) ∧
      e.price_high = e.price_low) ∧
    (∃ (recs : List PriceEntry) (tomato egg : PriceEntry),
      (handleBulkSubmit draftRowsState (.ok none) (.ok none)).sent.head? =
        some (DtiRequest.bulkEntry recs) ∧
      recs = [tomato, egg] ∧ egg.product_name = "Egg" ∧ egg.price_high = egg.price_low ∧
      egg.price_low = .finite false 8 0) := by
  constructor
  · obtain ⟨e, hsent, hdefault⟩ :=
      (price_high_defaults_to_price_low filledFormState (.ok ()) (.ok none) (.ok none)).1
    exact ⟨e, hsent, hdefault (Or.inl (by decide))⟩
  · obtain ⟨recs, hsent, hrows⟩ :=
      (price_high_defaults_to_price_low draftRowsState (.ok ()) (.ok none) (.ok none)).2.1
        (by decide)
    have hvalid : validRows draftRowsState.bulkRows =
        [⟨"Tomato", "50", "65", "kg"⟩, ⟨"Egg", "8", "abc", "piece"⟩] := by decide
    rw [hvalid] at hrows
    obtain ⟨tomato, rest, _, hrest, rfl⟩ := List.forall₂_cons_left_iff.1 hrows
    obtain ⟨egg, rest', ⟨hname, hegg⟩, hnil, rfl⟩ := List.forall₂_cons_left_iff.1 hrest
    have hrest' : rest' = [] := by simpa using hnil
    subst hrest'
    have hlow : egg.price_low = .finite false 8 0 := by
      have h2 : (handleBulkSubmit draftRowsState (.ok none) (.ok none)).sent.head? =
          some (DtiRequest.bulkEntry
            [⟨"Tomato", .finite false 50 0, .finite false 65 0, "kg"⟩,
              ⟨"Egg", .finite false 8 0, .finite false 8 0, "piece"⟩]) := by decide
      rw [h2] at hsent
      have h3 := DtiRequest.bulkEntry.inj (Option.some.inj hsent)
      have h4 := (List.cons.inj (List.cons.inj h3).2).1
      rw [← h4]
    exact ⟨[tomato, egg], tomato, egg, hsent, rfl, hname, hegg (Or.inr (by decide)), hlow⟩

theorem validFloatingPoint_of_number_valid (min step value : String)
    (h : (FormInput.number true min step value).valid = true) :
    validFloatingPoint value = true := by
  by_contra hv
  have hempty : numberInputValue value = "" := by simp [numberInputValue, hv]
  simp [FormInput.valid, hempty] at h

/-- C5: manual submit validates its required fields.  For every manual form
whose `product_name` is empty or whose `price_low` is empty or unparsable,
submitting the form does not run `handleManualSubmit`: nothing is posted and
the state is unchanged.  So every record that a submission posts has the
non-empty product name of the form and its parsed low price, which is a
number; and a valid form is posted. -/
theorem manualFormSubmit_validates_required (s : DTIState) (post : Outcome Unit)
    (reload : Outcome (Option (List PriceRecord))) :
    (s.manualForm.product_name = "" ∨ s.manualForm.price_low = "" ∨
        parseFloat s.manualForm.price_low = .nan →
      (manualFormSubmit s post reload).sent = [] ∧
      (manualFormSubmit s post reload).state = s) ∧
    (∀ e, DtiRequest.manualEntry e ∈ (manualFormSubmit s post reload).sent →
      e.product_name = s.manualForm.product_name ∧ e.product_name ≠ "" ∧
      e.price_low = parseFloat s.manualForm.price_low ∧ e.price_low ≠ .nan) ∧
    (manualFormValid s.manualForm = true →
      (manualFormSubmit s post reload).sent.head? =
        some (DtiRequest.manualEntry (manualEntryPayload s.manualForm))) := by
  have hvalid : manualFormValid s.manualForm = true →
      s.manualForm.product_name ≠ "" ∧ s.manualForm.price_low ≠ "" ∧
        parseFloat s.manualForm.price_low ≠ .nan := by
    intro hok
    simp only [manualFormValid, manualFormInputs, List.all_cons, List.all_nil, Bool.and_true,
      Bool.and_eq_true] at hok
    obtain ⟨hname, hlow, _⟩ := hok
    have hfloat := validFloatingPoint_of_number_valid _ _ _ hlow
    refine ⟨?_, ?_, parseFloat_ne_nan _ hfloat⟩
    · intro h
      rw [h] at hname
      exact absurd hname (by decide)
    · intro h
      rw [h] at hfloat
      exact absurd hfloat (by decide)
  refine ⟨?_, ?_, ?_⟩
  · intro h
    have hno : manualFormValid s.manualForm = false := by
      rw [← Bool.not_eq_true]
      intro hok
      obtain ⟨h1, h2, h3⟩ := hvalid hok
      rcases h with h | h | h
      · exact h1 h
      · exact h2 h
      · exact h3 h
    simp [manualFormSubmit, hno]
  · intro e hmem
    by_cases hok : manualFormValid s.manualForm = true
    · obtain ⟨h1, _, h3⟩ := hvalid hok
      have he : e = manualEntryPayload s.manualForm := by
        unfold manualFormSubmit at hmem
        rw [if_pos hok] at hmem
        unfold handleManualSubmit at hmem
        cases post <;> simpa using hmem
      rw [he]
      exact ⟨rfl, h1, rfl, h3⟩
    · simp [manualFormSubmit, hok] at hmem
  · intro hok
    unfold manualFormSubmit
    rw [if_pos hok]
    unfold handleManualSubmit
    cases post <;> rfl

/-- Witness for C5: submitting the untouched form posts nothing; so does a
form with the low price 0, which is below `min`; a form with a product name
and the low price 50.00 is posted. -/
theorem manualFormSubmit_validates_required_witness :
    ((manualFormSubmit blankFormState (.ok ()) (.ok none)).sent = [] ∧
      (manualFormSubmit blankFormState (.ok ()) (.ok none)).state = blankFormState) ∧
    (manualFormSubmit zeroLowState (.ok ()) (.ok none)).sent = [] ∧
    (manualFormSubmit filledFormState (.ok ()) (.ok none)).sent.head? =
      some (DtiRequest.manualEntry
        ⟨"Tomato", .finite false 5000 (-2), .finite false 5000 (-2), "kg"⟩) :=
  ⟨(manualFormSubmit_validates_required blankFormState (.ok ()) (.ok none)).1
      (Or.inl (by decide)),
    by decide,
    (manualFormSubmit_validates_required filledFormState (.ok ()) (.ok none)).2.2 (by decide)⟩

/-! ## Order workflow of the dashboard -/

theorem offeredStatuses_pending (formOpen : Bool) (t : String) :
    t ∈ offeredStatuses "pending" formOpen ↔ t = "approved" ∨ t = "rejected" := by
  cases formOpen <;> simp [offeredStatuses, cardButtons, CardButton.requestedStatus]

theorem offeredStatuses_approved (formOpen : Bool) :
    offeredStatuses "approved" formOpen = ["ready_for_ship"] := by
  cases formOpen <;> rfl

theorem offeredStatuses_other (a : String) (formOpen : Bool) (h1 : a ≠ "pending")
    (h2 : a ≠ "approved") (h3 : a ≠ "ready_for_ship") (h4 : a ≠ "picked_up")
    (h5 : a ≠ "on_the_way") : offeredStatuses a formOpen = [] := by
  simp [offeredStatuses, cardButtons, h1, h2, h3, h4, h5]

theorem mem_offeredStatuses (a b : String) (formOpen : Bool)
    (h : b ∈ offeredStatuses a formOpen) :
    (a = "pending" ∧ (b = "approved" ∨ b = "rejected")) ∨
    (a = "approved" ∧ b = "ready_for_ship") ∨
    (a = "ready_for_ship" ∧ b = "picked_up") ∨
    (a = "picked_up" ∧ b = "on_the_way") ∨
    (a = "on_the_way" ∧ b = "delivered") := by
  by_cases h1 : a = "pending"
  · subst h1
    exact Or.inl ⟨rfl, (offeredStatuses_pending formOpen b).1 h⟩
  by_cases h2 : a = "approved"
  · subst h2
    have : offeredStatuses "approved" formOpen = ["ready_for_ship"] := by cases formOpen <;> rfl
    rw [this] at h
    simp at h
    tauto
  by_cases h3 : a = "ready_for_ship"
  · subst h3
    have : offeredStatuses "ready_for_ship" formOpen = ["picked_up"] := by cases formOpen <;> rfl
    rw [this] at h
    simp at h
    tauto
  by_cases h4 : a = "picked_up"
  · subst h4
    have : offeredStatuses "picked_up" formOpen = ["on_the_way"] := by cases formOpen <;> rfl
    rw [this] at h
    simp at h
    tauto
  by_cases h5 : a = "on_the_way"
  · subst h5
    have : offeredStatuses "on_the_way" formOpen = ["delivered"] := by cases formOpen <;> rfl
    rw [this] at h
    simp at h
    tauto
  rw [offeredStatuses_other a formOpen h1 h2 h3 h4 h5] at h
  simp at h

theorem stepsLeft_lt_of_offers (a b : String) (h : offers a b) : stepsLeft b < stepsLeft a := by
  have h' : ∃ f, b ∈ offeredStatuses a f := by
    rcases h with h | h
    · exact ⟨true, h⟩
    · exact ⟨false, h⟩
  obtain ⟨f, hf⟩ := h'
  rcases mem_offeredStatuses a b f hf with ⟨rfl, rfl | rfl⟩ | ⟨rfl, rfl⟩ | ⟨rfl, rfl⟩ | ⟨rfl, rfl⟩ | ⟨rfl, rfl⟩ <;> decide

theorem chain_length_le (l : List String) (a : String) (h : List.Chain offers a l) :
    l.length ≤ stepsLeft a := by
  induction l generalizing a with
  | nil => simp
  | cons b l ih =>
    rw [List.chain_cons] at h
    have h1 := stepsLeft_lt_of_offers a b h.1
    have h2 := ih b h.2
    simp only [List.length_cons]
    omega

theorem stepsLeft_le (a : String) : stepsLeft a ≤ 5 := by
  unfold stepsLeft
  split_ifs <;> omega

theorem chain_nodup (l : List String) (h : List.Chain' offers l) : l.Nodup := by
  have h1 : List.Chain' (fun a b => stepsLeft b < stepsLeft a) l :=
    h.imp (fun a b hab => stepsLeft_lt_of_offers a b hab)
  haveI : IsTrans String (fun a b => stepsLeft b < stepsLeft a) :=
    ⟨fun a b c hab hbc => lt_trans hbc hab⟩
  have h2 := List.chain'_iff_pairwise.1 h1
  exact h2.imp (fun {a b} hab heq => by rw [heq] at hab; exact lt_irrefl _ hab)

/-- C6: the status changes a card offers are determined by the lower-cased
status of its order, a missing (or empty) status counting as pending.
Pending offers exactly approved and rejected, approved exactly
ready_for_ship, ready_for_ship exactly picked_up, picked_up exactly
on_the_way, on_the_way exactly delivered, and every other status, delivered
and rejected among them, offers none.  So rejected is offered only for a
pending order and every other status offers at most one change. -/
theorem orderCard_offers (toLowerCase : String → String) (s : DashState) (order : Order) :
    (order.status = none ∨ order.status = some "" →
      statusValue toLowerCase order = toLowerCase "pending") ∧
    (∀ st, order.status = some st → st ≠ "" → statusValue toLowerCase order = toLowerCase st) ∧
    (statusValue toLowerCase order = "pending" →
      ∀ t, t ∈ (orderCardButtons toLowerCase s order).filterMap CardButton.requestedStatus ↔
        t = "approved" ∨ t = "rejected") ∧
    (statusValue toLowerCase order = "approved" →
      (orderCardButtons toLowerCase s order).filterMap CardButton.requestedStatus =
        ["ready_for_ship"]) ∧
    (statusValue toLowerCase order = "ready_for_ship" →
      (orderCardButtons toLowerCase s order).filterMap CardButton.requestedStatus =
        ["picked_up"]) ∧
    (statusValue toLowerCase order = "picked_up" →
      (orderCardButtons toLowerCase s order).filterMap CardButton.requestedStatus =
        ["on_the_way"]) ∧
    (statusValue toLowerCase order = "on_the_way" →
      (orderCardButtons toLowerCase s order).filterMap CardButton.requestedStatus =
        ["delivered"]) ∧
    (statusValue toLowerCase order ∉
        ["pending", "approved", "ready_for_ship", "picked_up", "on_the_way"] →
      (orderCardButtons toLowerCase s order).filterMap CardButton.requestedStatus = []) ∧
    ("rejected" ∈ (orderCardButtons toLowerCase s order).filterMap CardButton.requestedStatus →
      statusValue toLowerCase order = "pending") ∧
    (statusValue toLowerCase order ≠ "pending" →
      ((orderCardButtons toLowerCase s order).filterMap CardButton.requestedStatus).length ≤ 1) := by
  have hoff : (orderCardButtons toLowerCase s order).filterMap CardButton.requestedStatus =
      offeredStatuses (statusValue toLowerCase order)
        (decide (s.rejectionOrderId = some order.id)) := rfl
  rw [hoff]
  generalize decide (s.rejectionOrderId = some order.id) = formOpen
  refine ⟨?_, ?_, ?_, ?_, ?_, ?_, ?_, ?_, ?_, ?_⟩
  · rintro (h | h) <;> simp [statusValue, textOr, h, strTruthy]
  · intro st h hne
    simp [statusValue, textOr, h, strTruthy, hne]
  · intro h t
    rw [h]
    exact offeredStatuses_pending formOpen t
  · intro h
    rw [h]
    cases formOpen <;> rfl
  · intro h
    rw [h]
    cases formOpen <;> rfl
  · intro h
    rw [h]
    cases formOpen <;> rfl
  · intro h
    rw [h]
    cases formOpen <;> rfl
  · intro h
    simp only [List.mem_cons, List.mem_singleton, List.not_mem_nil, or_false, not_or] at h
    exact offeredStatuses_other _ formOpen h.1 h.2.1 h.2.2.1 h.2.2.2.1 h.2.2.2.2
  · intro h
    rcases mem_offeredStatuses _ _ formOpen h with
      ⟨h1, _⟩ | ⟨_, h2⟩ | ⟨_, h2⟩ | ⟨_, h2⟩ | ⟨_, h2⟩
    · exact h1
    all_goals exact absurd h2 (by decide)
  · intro hne
    generalize statusValue toLowerCase order = a at hne
    by_cases h2 : a = "approved"
    · subst h2; cases formOpen <;> decide
    by_cases h3 : a = "ready_for_ship"
    · subst h3; cases formOpen <;> decide
    by_cases h4 : a = "picked_up"
    · subst h4; cases formOpen <;> decide
    by_cases h5 : a = "on_the_way"
    · subst h5; cases formOpen <;> decide
    rw [offeredStatuses_other a formOpen hne h2 h3 h4 h5]
    simp

/-- Witness for C6: an order without a status is shown as pending and offers
approved and rejected. -/
theorem orderCard_offers_witness :
    statusValue asciiLowerCase (sampleOrder "o1" none) = asciiLowerCase "pending" ∧
    (∀ t, t ∈ (orderCardButtons asciiLowerCase (rejectingState "") (sampleOrder "o1" none)).filterMap
        CardButton.requestedStatus ↔ t = "approved" ∨ t = "rejected") :=
  ⟨(orderCard_offers asciiLowerCase (rejectingState "") (sampleOrder "o1" none)).1 (Or.inl rfl),
    (orderCard_offers asciiLowerCase (rejectingState "") (sampleOrder "o1" none)).2.2.1
      (by decide)⟩

/-- C7: a rejection is sent only with a non-empty reason.
`updateOrderStatus(orderId, 'rejected')` sends nothing and only sets
`rejectionOrderId` to that order.  `submitRejection` sends
`updateSellerOrderStatus` with status `rejected` and the reason exactly when
the reason is non-empty after trimming, and sends no other status update;
with a blank reason it sends nothing and sets the error banner
`Cancellation reason is required.` -/
theorem rejection_requires_reason (s : DashState) (orderId : String)
    (res : Outcome (Option StatusData)) (productsRes : Outcome (Option (List Product)))
    (ordersRes : Outcome (Option (List Order))) :
    (updateOrderStatus s orderId "rejected" res productsRes ordersRes).sent = [] ∧
    (updateOrderStatus s orderId "rejected" res productsRes ordersRes).state =
      { s with rejectionOrderId := some orderId } ∧
    (DashRequest.updateSellerOrderStatus orderId "rejected" (some s.rejectionReason) ∈
        (submitRejection s orderId res productsRes ordersRes).sent ↔
      trim s.rejectionReason ≠ "") ∧
    (∀ id status reason,
      DashRequest.updateSellerOrderStatus id status reason ∈
          (submitRejection s orderId res productsRes ordersRes).sent →
        id = orderId ∧ status = "rejected" ∧ reason = some s.rejectionReason) ∧
    (trim s.rejectionReason = "" →
      (submitRejection s orderId res productsRes ordersRes).sent = [] ∧
      (submitRejection s orderId res productsRes ordersRes).state =
        { s with flashMessages := [⟨"error", "Cancellation reason is required."⟩] }) := by
  refine ⟨by simp [updateOrderStatus], by simp [updateOrderStatus], ?_, ?_, ?_⟩
  · by_cases h : trim s.rejectionReason = ""
    · simp [submitRejection, strTruthy, h]
    · simp only [ne_eq, h, not_false_eq_true, iff_true]
      unfold submitRejection
      simp only [strTruthy, ne_eq, h, not_false_eq_true, decide_True, Bool.not_true,
        Bool.false_eq_true, if_false]
      rcases res with e | data
      · simp
      · by_cases hs : (data.getD ⟨false, none⟩).success = true
        · simp [hs]
        · simp [hs]
  · intro id status reason hmem
    unfold submitRejection at hmem
    split at hmem
    · simp at hmem
    · rcases res with e | data
      · simpa using hmem
      · by_cases hs : (data.getD ⟨false, none⟩).success = true
        · simp only [hs, if_true, List.mem_cons] at hmem
          rcases hmem with hmem | hmem
          · simpa using hmem
          · exfalso
            unfold loadFarmerData at hmem
            rcases productsRes with e | ps
            · simp at hmem
            · rcases ordersRes with e | os <;> simp at hmem
        · simpa [hs] using hmem
  · intro h
    simp [submitRejection, strTruthy, h]

/-- Witness for C7: a reason made of spaces is blank. -/
theorem rejection_requires_reason_witness :
    (submitRejection (rejectingState "   ") "o1" (.ok none) (.ok none) (.ok none)).sent = [] ∧
    (submitRejection (rejectingState "   ") "o1" (.ok none) (.ok none) (.ok none)).state =
      { rejectingState "   " with
        flashMessages := [⟨"error", "Cancellation reason is required."⟩] } :=
  (rejection_requires_reason (rejectingState "   ") "o1" (.ok none) (.ok none)
    (.ok none)).2.2.2.2 (by decide)

/-- C8: status transitions are monotonic.  With the ranking pending <
approved < ready_for_ship < picked_up < on_the_way < delivered, every status
other than rejected that a card in status `a` offers has the rank of `a` plus
one; delivered and rejected offer nothing.  Hence a sequence of statuses in
which each one is offered from the one before never repeats a status and has
at most five steps. -/
theorem status_transitions_monotonic :
    (∀ (a b : String) (formOpen : Bool), b ∈ offeredStatuses a formOpen → b ≠ "rejected" →
      ∃ n, statusRank a = some n ∧ statusRank b = some (n + 1)) ∧
    (∀ formOpen : Bool,
      offeredStatuses "delivered" formOpen = [] ∧ offeredStatuses "rejected" formOpen = []) ∧
    (∀ l : List String, List.Chain' offers l → l.Nodup ∧ l.length ≤ 5 + 1) := by
  refine ⟨?_, ?_, ?_⟩
  · intro a b formOpen h hne
    rcases mem_offeredStatuses a b formOpen h with
      ⟨rfl, rfl | rfl⟩ | ⟨rfl, rfl⟩ | ⟨rfl, rfl⟩ | ⟨rfl, rfl⟩ | ⟨rfl, rfl⟩
    · exact ⟨0, rfl, rfl⟩
    · exact absurd rfl hne
    · exact ⟨1, rfl, rfl⟩
    · exact ⟨2, rfl, rfl⟩
    · exact ⟨3, rfl, rfl⟩
    · exact ⟨4, rfl, rfl⟩
  · intro formOpen
    cases formOpen <;> exact ⟨rfl, rfl⟩
  · intro l h
    refine ⟨chain_nodup l h, ?_⟩
    cases l with
    | nil => simp
    | cons a l =>
      have h1 := chain_length_le l a h
      have h2 := stepsLeft_le a
      simp only [List.length_cons]
      omega

/-- Witness for C8: the full workflow, five steps from pending to delivered. -/
theorem status_transitions_monotonic_witness :
    ["pending", "approved", "ready_for_ship", "picked_up", "on_the_way", "delivered"].Nodup ∧
    ["pending", "approved", "ready_for_ship", "picked_up", "on_the_way", "delivered"].length ≤
      5 + 1 :=
  status_transitions_monotonic.2.2 _ (by
    simp only [List.chain'_cons, List.chain'_singleton, and_true]
    refine ⟨?_, ?_, ?_, ?_, ?_⟩ <;> exact Or.inl (by decide))

/-! ## Selection of records -/

/-- C9: the select-all control considers only the filtered records.
`handleSelectAll(true)` makes the selection exactly the set of `_id` values of
`filteredRecords` (whatever was selected before), `handleSelectAll(false)`
empties it, and after `handleSelectAll(true)` on a non-empty filtered list the
header checkbox is checked.  `handleSelectOne(id, checked)` puts `id` in or
out of the selection and leaves the membership of every other id as it
was. -/
theorem select_all_visible (toLowerCase : String → String) (s : DTIState) :
    (∀ id, (handleSelectAll toLowerCase s true).selectedIds.has id = true ↔
      id ∈ (filteredRecords toLowerCase s).map (fun r => r._id)) ∧
    (∀ id, (handleSelectAll toLowerCase s false).selectedIds.has id = false) ∧
    (filteredRecords toLowerCase s ≠ [] →
      selectAllChecked toLowerCase (handleSelectAll toLowerCase s true) = true) ∧
    (∀ id, (handleSelectOne s id true).selectedIds.has id = true) ∧
    (∀ id, (handleSelectOne s id false).selectedIds.has id = false) ∧
    (∀ id checked other, other ≠ id →
      (handleSelectOne s id checked).selectedIds.has other = s.selectedIds.has other) := by
  refine ⟨?_, ?_, ?_, ?_, ?_, ?_⟩
  · intro id
    simp [handleSelectAll, JSSet.has_iff, JSSet.mem_ofArray]
  · intro id
    simp [handleSelectAll, JSSet.has, JSSet.empty]
  · intro hne
    have hfilt : filteredRecords toLowerCase (handleSelectAll toLowerCase s true) =
        filteredRecords toLowerCase s := rfl
    unfold selectAllChecked
    rw [hfilt, Bool.and_eq_true]
    constructor
    · simpa [List.length_pos] using hne
    · rw [List.all_eq_true]
      intro r hr
      simp only [handleSelectAll, if_true, JSSet.has_iff, JSSet.mem_ofArray]
      exact List.mem_map_of_mem _ hr
  · intro id
    simp [handleSelectOne, JSSet.has_iff, JSSet.mem_add]
  · intro id
    simp [handleSelectOne, JSSet.has, JSSet.mem_delete]
  · intro id checked other hne
    cases checked
    · simp [handleSelectOne, JSSet.has, JSSet.mem_delete, hne]
    · simp [handleSelectOne, JSSet.has, JSSet.mem_add, hne]

/-- Witness for C9: with the search text `an` over Banana, Mango and Rice,
select-all replaces the selection of the hidden Rice by the two shown
records and the header checkbox becomes checked. -/
theorem select_all_visible_witness :
    (handleSelectAll asciiLowerCase searchingState true).selectedIds.toArray =
        [some "a", some "b"] ∧
      selectAllChecked asciiLowerCase (handleSelectAll asciiLowerCase searchingState true) =
        true :=
  ⟨by decide, (select_all_visible asciiLowerCase searchingState).2.2.1 (by decide)⟩

/-- C10: `deleteRecord` sends nothing and changes no state when the prompt is
declined.  When it is confirmed and the request succeeds, the delete request
is sent and the new selection is the old one without that id: every other id
keeps its membership.  When the request fails the selection is unchanged. -/
theorem deleteRecord_selection (s : DTIState) (recordId productName : Option String)
    (confirm : String → Bool) (del : Outcome Unit)
    (reload : Outcome (Option (List PriceRecord))) :
    (confirm (deleteRecordMsg productName) = false →
      (deleteRecord s recordId productName confirm del reload).sent = [] ∧
      (deleteRecord s recordId productName confirm del reload).state = s) ∧
    (confirm (deleteRecordMsg productName) = true → (∃ u, del = .ok u) →
      (deleteRecord s recordId productName confirm del reload).sent =
        [DtiRequest.deleteRecord recordId, DtiRequest.getPrices] ∧
      (deleteRecord s recordId productName confirm del reload).state.selectedIds.has recordId =
        false ∧
      ∀ id, id ≠ recordId →
        (deleteRecord s recordId productName confirm del reload).state.selectedIds.has id =
          s.selectedIds.has id) ∧
    (confirm (deleteRecordMsg productName) = true → (∃ e, del = .error e) →
      (deleteRecord s recordId productName confirm del reload).sent =
        [DtiRequest.deleteRecord recordId] ∧
      (deleteRecord s recordId productName confirm del reload).state.selectedIds =
        s.selectedIds) := by
  refine ⟨?_, ?_, ?_⟩
  · intro h
    simp [deleteRecord, h]
  · rintro h ⟨u, rfl⟩
    refine ⟨by simp [deleteRecord, h], ?_, ?_⟩
    · cases reload <;>
        simp [deleteRecord, h, loadRecords, loadRecordsSettle, JSSet.has, JSSet.mem_delete]
    · intro id hne
      cases reload <;>
        simp [deleteRecord, h, loadRecords, loadRecordsSettle, JSSet.has, JSSet.mem_delete, hne]
  · rintro h ⟨e, rfl⟩
    simp [deleteRecord, h]

/-- Witness for C10: both records are selected and the first one is deleted. -/
theorem deleteRecord_selection_witness :
    (deleteRecord fullSelectionState (some "a") (some "apple") (fun _ => true) (.ok ())
        (.ok none)).sent = [DtiRequest.deleteRecord (some "a"), DtiRequest.getPrices] ∧
    (deleteRecord fullSelectionState (some "a") (some "apple") (fun _ => true) (.ok ())
        (.ok none)).state.selectedIds.has (some "a") = false ∧
    ∀ id, id ≠ some "a" →
      (deleteRecord fullSelectionState (some "a") (some "apple") (fun _ => true) (.ok ())
          (.ok none)).state.selectedIds.has id = fullSelectionState.selectedIds.has id :=
  (deleteRecord_selection fullSelectionState (some "a") (some "apple") (fun _ => true) (.ok ())
    (.ok none)).2.1 rfl ⟨(), rfl⟩

/-! ## The Delete Selected button -/

theorem JSSet.size_eq_zero_iff {α : Type} [DecidableEq α] (t : JSSet α) :
    t.size = 0 ↔ ∀ x, t.has x = false := by
  unfold JSSet.size JSSet.has
  rw [List.length_eq_zero]
  constructor
  · intro h x
    simp [h]
  · intro h
    apply List.eq_nil_iff_forall_not_mem.2
    intro x hx
    simpa [hx] using h x

theorem JSSet.size_delete_only {α : Type} [DecidableEq α] (t : JSSet α) (x : α)
    (honly : ∀ y, t.has y = true → y = x) : (t.delete x).size = 0 := by
  rw [JSSet.size_eq_zero_iff]
  intro y
  rw [← Bool.not_eq_true, JSSet.has_iff, JSSet.mem_delete]
  rintro ⟨hy, hne⟩
  exact hne (honly y ((JSSet.has_iff t y).2 hy))

/-- C11: the Delete Selected button is disabled exactly when the selection is
empty, and `handleBulkDelete` run on an empty selection sends nothing and
changes no state.  In particular, when `id` is the only selected id, the
button is disabled after `handleSelectOne(id, false)` and after a confirmed,
successful `deleteRecord(id)`. -/
theorem delete_selected_disabled (toLowerCase : String → String) (s : DTIState) :
    (deleteSelectedDisabled s = true ↔ ∀ id, s.selectedIds.has id = false) ∧
    ((∀ id, s.selectedIds.has id = false) →
      ∀ confirm del reload,
        (handleBulkDelete toLowerCase s confirm del reload).sent = [] ∧
        (handleBulkDelete toLowerCase s confirm del reload).state = s) ∧
    (∀ id, (∀ x, s.selectedIds.has x = true ↔ x = id) →
      deleteSelectedDisabled (handleSelectOne s id false) = true ∧
      ∀ productName confirm reload, confirm (deleteRecordMsg productName) = true →
        deleteSelectedDisabled (deleteRecord s id productName confirm (.ok ()) reload).state =
          true) := by
  refine ⟨?_, ?_, ?_⟩
  · simp [deleteSelectedDisabled, JSSet.size_eq_zero_iff]
  · intro h confirm del reload
    have h0 : s.selectedIds.size = 0 := (JSSet.size_eq_zero_iff _).2 h
    simp [handleBulkDelete, h0]
  · intro id honly
    have hdel : (s.selectedIds.delete id).size = 0 :=
      JSSet.size_delete_only _ id (fun y hy => (honly y).1 hy)
    refine ⟨by simp [deleteSelectedDisabled, handleSelectOne, hdel], ?_⟩
    intro productName confirm reload hconf
    cases reload <;>
      simp [deleteSelectedDisabled, deleteRecord, hconf, loadRecords, loadRecordsSettle, hdel]

/-- Witness for C11: the only selected record is deleted. -/
theorem delete_selected_disabled_witness :
    deleteSelectedDisabled (handleSelectOne singleSelectionState (some "a") false) = true ∧
    ∀ productName confirm reload, confirm (deleteRecordMsg productName) = true →
      deleteSelectedDisabled
          (deleteRecord singleSelectionState (some "a") productName confirm (.ok ())
            reload).state = true :=
  (delete_selected_disabled asciiLowerCase singleSelectionState).2.2 (some "a") (by
    intro x
    rw [JSSet.has_iff]
    exact List.mem_singleton)

/-! ## Loading and uploading -/

/-- C12: when `getPrices` fails, `loadRecords` leaves the record list as it
was, sets the banner to the single error message
`Failed to load DTI price records.` and ends with `loading = false`; when it
succeeds the record list becomes the returned records, the empty list when
the response has none, and `loading` ends false. -/
theorem loadRecords_outcome (s : DTIState) :
    (∀ e, (loadRecords (.error e) s).records = s.records ∧
      (loadRecords (.error e) s).flashMessages =
        [⟨"error", some "Failed to load DTI price records."⟩] ∧
      (loadRecords (.error e) s).loading = false) ∧
    (∀ recs, (loadRecords (.ok (some recs)) s).records = recs ∧
      (loadRecords (.ok (some recs)) s).loading = false) ∧
    ((loadRecords (.ok none) s).records = [] ∧ (loadRecords (.ok none) s).loading = false) := by
  refine ⟨fun e => ⟨rfl, rfl, rfl⟩, fun recs => ⟨rfl, rfl⟩, rfl, rfl⟩

/-- C13: when a file is selected and the upload request fails,
`handlePdfUpload` sends the upload only (no reload) and leaves the record
list as it was; `uploadResult` becomes the error result carrying the server's
`raw_text_preview` when the error response provides a non-empty one, and
keeps its value otherwise. -/
theorem handlePdfUpload_failure (s : DTIState) (file : String) (e : Option ErrorData)
    (reload : Outcome (Option (List PriceRecord))) (hfile : s.pdfFile = some file) :
    (handlePdfUpload s (.error e) reload).sent = [DtiRequest.uploadPdf file] ∧
    (handlePdfUpload s (.error e) reload).state.records = s.records ∧
    (∀ d preview, e = some d → d.raw_text_preview = some preview → preview ≠ "" →
      (handlePdfUpload s (.error e) reload).state.uploadResult =
        some { message := none, records := none, raw_text_preview := some preview,
               error := true }) ∧
    (¬(∃ d preview, e = some d ∧ d.raw_text_preview = some preview ∧ preview ≠ "") →
      (handlePdfUpload s (.error e) reload).state.uploadResult = s.uploadResult) := by
  refine ⟨by simp [handlePdfUpload, hfile], by simp [handlePdfUpload, hfile], ?_, ?_⟩
  · rintro d preview rfl hd hne
    simp [handlePdfUpload, hfile, uploadResultAfterError, hd, strTruthy, hne]
  · intro hno
    simp only [handlePdfUpload, hfile]
    unfold uploadResultAfterError
    cases e with
    | none => rfl
    | some d =>
      cases hd : d.raw_text_preview with
      | none => simp [hd]
      | some preview =>
        by_cases hne : preview = ""
        · simp [hd, strTruthy, hne]
        · exact absurd ⟨d, preview, rfl, hd, hne⟩ hno

/-- Witness for C13: the server could read the text of the PDF but not parse
it. -/
theorem handlePdfUpload_failure_witness :
    (handlePdfUpload uploadingState
        (.error (some ⟨some "No prices found", some "TOMATO 50.00"⟩)) (.ok none)).sent =
      [DtiRequest.uploadPdf "bulletin.pdf"] ∧
    (handlePdfUpload uploadingState
        (.error (some ⟨some "No prices found", some "TOMATO 50.00"⟩))
        (.ok none)).state.uploadResult =
      some { message := none, records := none, raw_text_preview := some "TOMATO 50.00",
             error := true } :=
  ⟨(handlePdfUpload_failure uploadingState "bulletin.pdf"
      (some ⟨some "No prices found", some "TOMATO 50.00"⟩) (.ok none) rfl).1,
    (handlePdfUpload_failure uploadingState "bulletin.pdf"
      (some ⟨some "No prices found", some "TOMATO 50.00"⟩) (.ok none) rfl).2.2.1
      _ _ rfl rfl (by decide)⟩

/-- C14: PDF upload requires a selected file.  When no file is selected,
`handlePdfUpload` sends nothing, sets the error banner
`Please select a PDF file.` and leaves `records`, `uploadResult` and
`loading` as they were. -/
theorem handlePdfUpload_requires_file (s : DTIState) (upload : Outcome UploadResult)
    (reload : Outcome (Option (List PriceRecord))) (hfile : s.pdfFile = none) :
    (handlePdfUpload s upload reload).sent = [] ∧
    (handlePdfUpload s upload reload).state.flashMessages =
      [⟨"error", some "Please select a PDF file."⟩] ∧
    (handlePdfUpload s upload reload).state.records = s.records ∧
    (handlePdfUpload s upload reload).state.uploadResult = s.uploadResult ∧
    (handlePdfUpload s upload reload).state.loading = s.loading := by
  simp [handlePdfUpload, hfile]

/-- Witness for C14: the form is submitted before any file was chosen. -/
theorem handlePdfUpload_requires_file_witness :
    (handlePdfUpload blankFormState (.error none) (.ok none)).sent = [] ∧
    (handlePdfUpload blankFormState (.error none) (.ok none)).state.flashMessages =
      [⟨"error", some "Please select a PDF file."⟩] ∧
    (handlePdfUpload blankFormState (.error none) (.ok none)).state.records =
      blankFormState.records ∧
    (handlePdfUpload blankFormState (.error none) (.ok none)).state.uploadResult =
      blankFormState.uploadResult ∧
    (handlePdfUpload blankFormState (.error none) (.ok none)).state.loading =
      blankFormState.loading :=
  handlePdfUpload_requires_file blankFormState (.error none) (.ok none) rfl

/-- C15, counterexample: the products fetch succeeds with one product and the
seller-orders fetch fails; the product list is no longer the prior (empty)
one. -/
theorem loadFarmerData_partial_counterexample :
    (loadFarmerData (.ok (some [sampleProduct "Tomato" 5 true])) (.error none)
        emptyDashState).state.products = [sampleProduct "Tomato" 5 true] ∧
    (loadFarmerData (.ok (some [sampleProduct "Tomato" 5 true])) (.error none)
        emptyDashState).state.products ≠ emptyDashState.products := by
  refine ⟨rfl, by decide⟩

/-- C15, amended: if the products fetch fails, the seller-orders fetch is not
made and both the product list and the order list are left equal to their
prior values; if the products fetch succeeds and the seller-orders fetch
fails, the order list is left equal to its prior value and the product list
is the fetched one (empty when the response has none). -/
theorem loadFarmerData_failure (s : DashState) (productsRes : Outcome (Option (List Product)))
    (ordersRes : Outcome (Option (List Order))) :
    ((∃ e, productsRes = .error e) →
      (loadFarmerData productsRes ordersRes s).sent = [DashRequest.getProducts] ∧
      (loadFarmerData productsRes ordersRes s).state.products = s.products ∧
      (loadFarmerData productsRes ordersRes s).state.sellerOrders = s.sellerOrders) ∧
    (∀ ps, productsRes = .ok ps → (∃ e, ordersRes = .error e) →
      (loadFarmerData productsRes ordersRes s).state.sellerOrders = s.sellerOrders ∧
      (loadFarmerData productsRes ordersRes s).state.products = ps.getD []) := by
  constructor
  · rintro ⟨e, rfl⟩
    exact ⟨rfl, rfl, rfl⟩
  · rintro ps rfl ⟨e, rfl⟩
    exact ⟨rfl, rfl⟩

/-- Witness for C15, amended: the products fetch fails on a dashboard that
shows a pending order. -/
theorem loadFarmerData_failure_witness :
    (loadFarmerData (.error none) (.ok none) (rejectingState "")).sent =
      [DashRequest.getProducts] ∧
    (loadFarmerData (.error none) (.ok none) (rejectingState "")).state.products =
      (rejectingState "").products ∧
    (loadFarmerData (.error none) (.ok none) (rejectingState "")).state.sellerOrders =
      (rejectingState "").sellerOrders :=
  (loadFarmerData_failure (rejectingState "") (.error none) (.ok none)).1 ⟨none, rfl⟩

/-! ## Error banners of the price management screen -/

theorem errorText_eq (e : Option ErrorData) (fallback : String) :
    (∀ d m, e = some d → d.error = some m → m ≠ "" → errorText e fallback = m) ∧
    (¬(∃ d m, e = some d ∧ d.error = some m ∧ m ≠ "") → errorText e fallback = fallback) := by
  constructor
  · rintro d m rfl hd hne
    simp [errorText, hd, strTruthy, hne]
  · intro hno
    unfold errorText
    cases e with
    | none => rfl
    | some d =>
      cases hd : d.error with
      | none => simp [hd]
      | some m =>
        by_cases hne : m = ""
        · simp [hd, strTruthy, hne]
        · exact absurd ⟨d, m, rfl, hd, hne⟩ hno

/-- The failed requests of manual entry, PDF upload, bulk entry and bulk
delete set one error banner whose text is `error.response?.data?.error` or a
generic string. -/
theorem failed_request_banner (toLowerCase : String → String) (s : DTIState)
    (e : Option ErrorData) (reload : Outcome (Option (List PriceRecord))) :
    (handleManualSubmit s (.error e) reload).state.flashMessages =
      [⟨"error", some (errorText e "Failed to add price record.")⟩] ∧
    (s.pdfFile ≠ none →
      (handlePdfUpload s (.error e) reload).state.flashMessages =
        [⟨"error", some (errorText e "Failed to process PDF.")⟩]) ∧
    (validRows s.bulkRows ≠ [] →
      (handleBulkSubmit s (.error e) reload).state.flashMessages =
        [⟨"error", some (errorText e "Failed to add records.")⟩]) ∧
    (∀ confirm, s.selectedIds.size ≠ 0 → confirm (bulkDeleteMsg toLowerCase s) = true →
      (handleBulkDelete toLowerCase s confirm (.error e) reload).state.flashMessages =
        [⟨"error", some (errorText e "Failed to delete records.")⟩]) := by
  refine ⟨rfl, ?_, ?_, ?_⟩
  · intro hfile
    cases hf : s.pdfFile with
    | none => exact absurd hf hfile
    | some file => simp [handlePdfUpload, hf]
  · intro hrows
    simp [handleBulkSubmit, hrows]
  · intro confirm hsel hconf
    simp [handleBulkDelete, hsel, hconf]

/-- C16, the failing case: the single delete fails with an error response
that carries the message `Record is locked`.  `deleteRecord` shows the fixed
text `Failed to delete record.`, while `handleBulkDelete`, given the same
error response, shows the server's message. -/
theorem deleteRecord_ignores_server_message :
    (deleteRecord fullSelectionState (some "a") (some "apple") (fun _ => true)
        (.error (some ⟨some "Record is locked", none⟩)) (.ok none)).state.flashMessages =
      [⟨"error", some "Failed to delete record."⟩] ∧
    (handleBulkDelete asciiLowerCase fullSelectionState (fun _ => true)
        (.error (some ⟨some "Record is locked", none⟩)) (.ok none)).state.flashMessages =
      [⟨"error", some "Record is locked"⟩] := by
  refine ⟨by decide, by decide⟩

/-! ## Statistics of the dashboard -/

/-- C18: `availableCount` is the number of products whose `available` flag is
not `false` and whose quantity is greater than 0, and `unavailableCount` is
`products.length` minus `availableCount`.  Both counts are non-negative and
sum to the number of products, and the data of the doughnut chart that
`initCharts` builds, when it builds one, is the pair of statistics shown on
the page. -/
theorem availability_counts (products : List Product) :
    availableCount products =
      ((products.countP
        (fun p => decide (p.available ≠ some false ∧ ∃ q, p.quantity = some q ∧ 0 < q)) : Nat) :
        Int) ∧
    unavailableCount products = (products.length : Int) - availableCount products ∧
    0 ≤ availableCount products ∧
    0 ≤ unavailableCount products ∧
    availableCount products + unavailableCount products = (products.length : Int) ∧
    availabilityChartData true true products =
      some [availableCount products, unavailableCount products] ∧
    (∀ chartLibrary canvas data,
      availabilityChartData chartLibrary canvas products = some data →
        data = [availableCount products, unavailableCount products]) := by
  have hle : (products.filter isAvailable).length ≤ products.length := List.length_filter_le _ _
  refine ⟨?_, rfl, ?_, ?_, ?_, rfl, ?_⟩
  · unfold availableCount
    rw [List.countP_eq_length_filter]
    congr 3
    funext p
    unfold isAvailable
    cases hq : p.quantity <;> simp
  · unfold availableCount
    omega
  · unfold unavailableCount availableCount
    omega
  · unfold unavailableCount
    omega
  · intro chartLibrary canvas data h
    cases chartLibrary <;> cases canvas <;> simp [availabilityChartData] at h
    rw [← h]
    rfl

/-- Witness for C18: of three products one is available, and the chart shows
the same two numbers. -/
theorem availability_counts_witness :
    availabilityChartData true true threeProducts = some [1, 2] ∧
      availableCount threeProducts + unavailableCount threeProducts = 3 :=
  ⟨(availability_counts threeProducts).2.2.2.2.2.1,
    (availability_counts threeProducts).2.2.2.2.1⟩

/-! ## Navigation bar -/

theorem navStep_keeps_flags_equal {ν : Type} (s : NavState) (event : NavEvent ν)
    (h : s.hideHeader = s.stickyNav) :
    (navStep s event).hideHeader = (navStep s event).stickyNav := by
  cases event with
  | scroll scrollY =>
    simp only [navStep, handleScroll]
    split <;> rfl
  | profileButtonClick => exact h
  | documentClick dropdownRef buttonRef target =>
    simp only [navStep, handleClickOutside]
    split
    · split
      · exact h
      · exact h
    · exact h
  | dropdownItemClick => exact h
  | mobileMenuToggle => exact h

theorem foldl_navStep_keeps_flags_equal {ν : Type} (events : List (NavEvent ν)) (s : NavState)
    (h : s.hideHeader = s.stickyNav) :
    (events.foldl navStep s).hideHeader = (events.foldl navStep s).stickyNav := by
  induction events generalizing s with
  | nil => exact h
  | cons event events ih => exact ih _ (navStep_keeps_flags_equal s event h)

/-- C19: after a scroll event at offset `y`, `hideHeader` and `stickyNav` are
both true if `y > 30` and both false if `y ≤ 30` (at exactly 30 the header is
still shown).  Hence `hideHeader = stickyNav` in every state reached from the
mounted state, where both are false. -/
theorem scroll_flags {ν : Type} (s : NavState) (y : ℚ) (events : List (NavEvent ν)) :
    (y > 30 → (handleScroll y s).hideHeader = true ∧ (handleScroll y s).stickyNav = true) ∧
    (y ≤ 30 → (handleScroll y s).hideHeader = false ∧ (handleScroll y s).stickyNav = false) ∧
    ((handleScroll 30 s).hideHeader = false) ∧
    (initialNavState.hideHeader = false ∧ initialNavState.stickyNav = false) ∧
    (navRun events).hideHeader = (navRun events).stickyNav := by
  refine ⟨?_, ?_, ?_, ⟨rfl, rfl⟩, ?_⟩
  · intro h
    simp [handleScroll, h]
  · intro h
    simp [handleScroll, not_lt.2 h]
  · simp [handleScroll]
  · exact foldl_navStep_keeps_flags_equal events initialNavState rfl

/-- Witness for C19: scrolling to offset 31 hides the header and sticks the
navigation bar. -/
theorem scroll_flags_witness :
    (handleScroll 31 initialNavState).hideHeader = true ∧
      (handleScroll 31 initialNavState).stickyNav = true :=
  (scroll_flags initialNavState 31 ([] : List (NavEvent Nat))).1 (by decide)

/-- C20: `handleProfileDropdown` flips `dropdownOpen`, and applying it twice
restores the state.  A document click whose target is outside both the
trigger button and the dropdown panel, both elements being mounted, leaves
`dropdownOpen = false` and nothing else changed; a document click inside
either element, or while either element is not mounted, changes nothing. -/
theorem profile_dropdown {ν : Type} (s : NavState) (dropdownRef buttonRef : Option (ν → Bool))
    (target : ν) :
    (handleProfileDropdown s).dropdownOpen = (!s.dropdownOpen) ∧
    handleProfileDropdown (handleProfileDropdown s) = s ∧
    (∀ dropdown button, dropdownRef = some dropdown → buttonRef = some button →
      button target = false → dropdown target = false →
        handleClickOutside dropdownRef buttonRef target s = { s with dropdownOpen := false }) ∧
    (∀ dropdown button, dropdownRef = some dropdown → buttonRef = some button →
      button target = true ∨ dropdown target = true →
        handleClickOutside dropdownRef buttonRef target s = s) ∧
    (dropdownRef = none ∨ buttonRef = none →
      handleClickOutside dropdownRef buttonRef target s = s) := by
  refine ⟨rfl, ?_, ?_, ?_, ?_⟩
  · cases s
    simp [handleProfileDropdown]
  · rintro dropdown button rfl rfl hb hd
    simp [handleClickOutside, hb, hd]
  · rintro dropdown button rfl rfl (h | h)
    · simp [handleClickOutside, h]
    · simp [handleClickOutside, h]
  · rintro (rfl | rfl)
    · rfl
    · cases dropdownRef <;> rfl

/-- Witness for C20: the dropdown is open, the panel holds the nodes 2 and 3,
the button is node 1, and node 9 is clicked. -/
theorem profile_dropdown_witness :
    handleClickOutside (some (fun n : Nat => n == 2 || n == 3)) (some (fun n : Nat => n == 1)) 9
        (handleProfileDropdown initialNavState) =
      { handleProfileDropdown initialNavState with dropdownOpen := false } :=
  (profile_dropdown (handleProfileDropdown initialNavState)
    (some (fun n : Nat => n == 2 || n == 3)) (some (fun n : Nat => n == 1)) 9).2.2.1
    _ _ rfl rfl (by decide) (by decide)

/-! ## Batches -/

theorem pushToBatch_keys (key : String) (r : PriceRecord) (groups : List (String × Batch)) :
    (pushToBatch key r groups).map Prod.fst = groups.map Prod.fst := by
  induction groups with
  | nil => rfl
  | cons g rest ih =>
    obtain ⟨k, b⟩ := g
    unfold pushToBatch
    split
    · rfl
    · simp [ih]

theorem mem_pushToBatch (key : String) (r : PriceRecord) (groups : List (String × Batch))
    (hnodup : (groups.map Prod.fst).Nodup) (g' : String × Batch)
    (h : g' ∈ pushToBatch key r groups) :
    ∃ g ∈ groups, g'.1 = g.1 ∧ g'.2.batch_id = g.2.batch_id ∧ g'.2.source = g.2.source ∧
      g'.2.date = g.2.date ∧
      g'.2.records = if g.1 = key then g.2.records ++ [r] else g.2.records := by
  induction groups with
  | nil => simp [pushToBatch] at h
  | cons g rest ih =>
    obtain ⟨k, b⟩ := g
    rw [List.map_cons, List.nodup_cons] at hnodup
    unfold pushToBatch at h
    split at h
    · rename_i hk
      rcases List.mem_cons.1 h with rfl | hrest
      · exact ⟨(k, b), List.mem_cons_self _ _, rfl, rfl, rfl, rfl, by simp [hk]⟩
      · refine ⟨g', List.mem_cons_of_mem _ hrest, rfl, rfl, rfl, rfl, ?_⟩
        have hne : g'.1 ≠ key := by
          intro e
          apply hnodup.1
          rw [hk, ← e]
          exact List.mem_map.2 ⟨g', hrest, rfl⟩
        simp [hne]
    · rename_i hk
      rcases List.mem_cons.1 h with rfl | hrest
      · exact ⟨(k, b), List.mem_cons_self _ _, rfl, rfl, rfl, rfl, by simp [hk]⟩
      · obtain ⟨g, hg, hrest'⟩ := ih hnodup.2 hrest
        exact ⟨g, List.mem_cons_of_mem _ hg, hrest'⟩

theorem pushToBatch_sum (key : String) (r : PriceRecord) (groups : List (String × Batch))
    (hkey : key ∈ groups.map Prod.fst) :
    ((pushToBatch key r groups).map (fun g => g.2.records.length)).sum =
      (groups.map (fun g => g.2.records.length)).sum + 1 := by
  induction groups with
  | nil => simp at hkey
  | cons g rest ih =>
    obtain ⟨k, b⟩ := g
    unfold pushToBatch
    split
    · simp
      omega
    · rename_i hk
      have hrest : key ∈ rest.map Prod.fst := by
        rcases List.mem_cons.1 hkey with h | h
        · exact absurd h.symm hk
        · exact h
      simp [ih hrest]
      omega

theorem filter_key_append (done : List PriceRecord) (r : PriceRecord) (k : String) :
    (done ++ [r]).filter (fun x => decide (batchKey x = k)) =
      done.filter (fun x => decide (batchKey x = k)) ++ (if batchKey r = k then [r] else []) := by
  rw [List.filter_append]
  by_cases h : batchKey r = k <;> simp [List.filter, h]

theorem addToBatches_inv (done : List PriceRecord) (groups : List (String × Batch))
    (r : PriceRecord) (hinv : BatchesInv done groups)
    (hkey : batchKey r ∉ objectPrototypeKeys) :
    ∃ groups', addToBatches groups r = .ok groups' ∧ BatchesInv (done ++ [r]) groups' := by
  obtain ⟨hnodup, hgroups, hcover, hsum⟩ := hinv
  by_cases hmem : batchKey r ∈ groups.map Prod.fst
  · refine ⟨pushToBatch (batchKey r) r groups, ?_, ?_, ?_, ?_, ?_⟩
    · unfold addToBatches
      rw [if_pos (by simpa using hmem)]
    · rw [pushToBatch_keys]
      exact hnodup
    · intro g' hg'
      obtain ⟨g, hg, h1, h2, h3, h4, h5⟩ := mem_pushToBatch _ r groups hnodup g' hg'
      obtain ⟨hid, hrecs, first, hfirst, hsrc, hdate⟩ := hgroups g hg
      refine ⟨by rw [h2, hid, h1], ?_, first, ?_, by rw [h3, hsrc], by rw [h4, hdate]⟩
      · rw [h5, filter_key_append, h1, hrecs]
        by_cases hk : g.1 = batchKey r
        · simp [hk]
        · simp [hk, Ne.symm hk]
      · rw [h5]
        by_cases hk : g.1 = batchKey r
        · rw [if_pos hk]
          cases hr : g.2.records with
          | nil => rw [hr] at hfirst; simp at hfirst
          | cons a l => rw [hr] at hfirst; simpa using hfirst
        · rw [if_neg hk]
          exact hfirst
    · intro x hx
      rw [pushToBatch_keys]
      rcases List.mem_append.1 hx with h | h
      · exact hcover x h
      · rw [List.mem_singleton.1 h]
        exact hmem
    · rw [pushToBatch_sum _ r groups hmem, hsum]
      simp
  · refine ⟨groups ++ [(batchKey r, newBatch r)], ?_, ?_, ?_, ?_, ?_⟩
    · unfold addToBatches
      rw [if_neg (by simpa using hmem), if_neg (by simpa using hkey)]
    · rw [List.map_append, List.nodup_append]
      refine ⟨hnodup, by simp, ?_⟩
      intro a ha hb
      simp only [List.map_cons, List.map_nil, List.mem_singleton] at hb
      exact hmem (hb ▸ ha)
    · intro g hg
      rcases List.mem_append.1 hg with h | h
      · obtain ⟨hid, hrecs, hfirst⟩ := hgroups g h
        refine ⟨hid, ?_, hfirst⟩
        have hne : ¬ batchKey r = g.1 := by
          intro e
          exact hmem (e ▸ List.mem_map_of_mem _ h)
        rw [filter_key_append, hrecs, if_neg hne, List.append_nil]
      · rw [List.mem_singleton.1 h]
        refine ⟨rfl, ?_, r, rfl, rfl, rfl⟩
        have hnone : done.filter (fun x => decide (batchKey x = batchKey r)) = [] := by
          rw [List.filter_eq_nil_iff]
          intro x hx
          simp only [decide_eq_true_eq]
          intro e
          exact hmem (e ▸ hcover x hx)
        show [r] = _
        rw [filter_key_append, hnone]
        simp
    · intro x hx
      rw [List.map_append]
      rcases List.mem_append.1 hx with h | h
      · exact List.mem_append_left _ (hcover x h)
      · rw [List.mem_singleton.1 h]
        simp
    · simp [hsum, newBatch]

theorem batches_inv (filtered : List PriceRecord)
    (hkeys : ∀ r ∈ filtered, batchKey r ∉ objectPrototypeKeys) :
    ∃ groups, batches filtered = .ok groups ∧ BatchesInv filtered groups := by
  induction filtered using List.reverseRecOn with
  | nil => exact ⟨[], rfl, by simp [BatchesInv]⟩
  | append_singleton done r ih =>
    obtain ⟨groups, hgroups, hinv⟩ := ih (fun x hx => hkeys x (List.mem_append_left _ hx))
    obtain ⟨groups', hadd, hinv'⟩ :=
      addToBatches_inv done groups r hinv (hkeys r (List.mem_append_right _ (List.mem_singleton_self r)))
    refine ⟨groups', ?_, hinv'⟩
    unfold batches at hgroups ⊢
    rw [List.foldlM_append, hgroups]
    show ([r].foldlM addToBatches groups) = _
    rw [List.foldlM_cons, hadd]
    rfl

/-- Away from the inherited property names, `batches` is a partition of the
filtered list: the keys are distinct, every record's key is one of them, the
group of a key holds exactly the records with that key in their original
order and takes its source and date from the first of them, and the group
sizes sum to the number of filtered records. -/
theorem batches_partition (filtered : List PriceRecord)
    (hkeys : ∀ r ∈ filtered, batchKey r ∉ objectPrototypeKeys) :
    ∃ groups, batches filtered = .ok groups ∧
      (groups.map Prod.fst).Nodup ∧
      (∀ g ∈ groups, g.2.batch_id = g.1 ∧
        g.2.records = filtered.filter (fun r => decide (batchKey r = g.1)) ∧
        ∃ first, g.2.records.head? = some first ∧ g.2.source = first.source_file ∧
          g.2.date = first.uploaded_at) ∧
      (∀ r ∈ filtered, batchKey r ∈ groups.map Prod.fst) ∧
      (groups.map (fun g => g.2.records.length)).sum = filtered.length :=
  batches_inv filtered hkeys

/-- C17, the failing case: a filtered record whose `batch_id` is
`constructor`.  `batches[key]` is then the inherited `Object` function, so no
batch is created and `batches[key].records.push(rec)` throws: the render
produces no grouping at all. -/
theorem batches_throws_on_inherited_key :
    batchKey inheritedKeyRecord = "constructor" ∧
    batches [inheritedKeyRecord] =
      .error "TypeError: Cannot read properties of undefined (reading 'push')" := by
  refine ⟨by decide, rfl⟩

/-! ## The list of records and its filter -/

theorem includes_iff (s q : String) :
    includes s q = true ↔ ∃ before after, s.toList = before ++ q.toList ++ after := by
  unfold includes
  rw [List.any_eq_true]
  constructor
  · rintro ⟨t, ht, hq⟩
    rw [List.mem_tails] at ht
    obtain ⟨before, hbefore⟩ := ht
    obtain ⟨after, hafter⟩ := List.isPrefixOf_iff_prefix.1 hq
    exact ⟨before, after, by rw [← hbefore, ← hafter, List.append_assoc]⟩
  · rintro ⟨before, after, h⟩
    refine ⟨q.toList ++ after, ?_, ?_⟩
    · rw [List.mem_tails]
      exact ⟨before, by rw [h, List.append_assoc]⟩
    · exact List.isPrefixOf_iff_prefix.2 ⟨after, rfl⟩

/-- C23: `filteredRecords` is a subsequence of `records` in the same order.
It equals `records` when the query is empty; otherwise it is `records`
filtered by "the product name, lower-cased, contains the lower-cased query",
a record without a product name being excluded.  Hence it has the length of
`records` exactly when no record is filtered out. -/
theorem filteredRecords_subsequence (toLowerCase : String → String) (s : DTIState) :
    (filteredRecords toLowerCase s).Sublist s.records ∧
    (s.searchQuery = "" → filteredRecords toLowerCase s = s.records) ∧
    (s.searchQuery ≠ "" →
      filteredRecords toLowerCase s =
        s.records.filter (fun r =>
          r.product_name.any (fun name =>
            includes (toLowerCase name) (toLowerCase s.searchQuery))) ∧
      ∀ r, r ∈ filteredRecords toLowerCase s ↔
        r ∈ s.records ∧ ∃ name before after, r.product_name = some name ∧
          (toLowerCase name).toList = before ++ (toLowerCase s.searchQuery).toList ++ after) ∧
    (s.searchQuery ≠ "" →
      ∀ r ∈ s.records, r.product_name = none → r ∉ filteredRecords toLowerCase s) ∧
    ((filteredRecords toLowerCase s).length = s.records.length ↔
      ∀ r ∈ s.records, r ∈ filteredRecords toLowerCase s) := by
  have hsub := filteredRecords_sublist toLowerCase s
  have hfilter : s.searchQuery ≠ "" → filteredRecords toLowerCase s =
      s.records.filter (fun r =>
        r.product_name.any (fun name =>
          includes (toLowerCase name) (toLowerCase s.searchQuery))) := by
    intro hq
    unfold filteredRecords
    congr 1
    funext r
    cases r.product_name <;> simp [strTruthy, hq]
  refine ⟨hsub, ?_, ?_, ?_, ?_⟩
  · intro hq
    unfold filteredRecords
    simp [strTruthy, hq]
  · intro hq
    refine ⟨hfilter hq, ?_⟩
    intro r
    rw [hfilter hq, List.mem_filter]
    constructor
    · rintro ⟨hr, hany⟩
      cases hname : r.product_name with
      | none => rw [hname] at hany; simp at hany
      | some name =>
        rw [hname] at hany
        obtain ⟨before, after, h⟩ := (includes_iff _ _).1 (by simpa using hany)
        exact ⟨hr, name, before, after, rfl, h⟩
    · rintro ⟨hr, name, before, after, hname, h⟩
      refine ⟨hr, ?_⟩
      rw [hname]
      simpa using (includes_iff _ _).2 ⟨before, after, h⟩
  · intro hq r _ hname hmem
    rw [hfilter hq, List.mem_filter, hname] at hmem
    simp at hmem
  · constructor
    · intro hlen r hr
      rw [hsub.eq_of_length hlen]
      exact hr
    · intro hall
      have : filteredRecords toLowerCase s = s.records := by
        unfold filteredRecords
        rw [List.filter_eq_self]
        intro r hr
        have := hall r hr
        unfold filteredRecords at this
        exact (List.mem_filter.1 this).2
      rw [this]

/-- Witness for C23: the search text `an` over Banana, Mango and Rice keeps
the first two. -/
theorem filteredRecords_subsequence_witness :
    filteredRecords asciiLowerCase searchingState =
      searchingState.records.filter (fun r =>
        r.product_name.any (fun name =>
          includes (asciiLowerCase name) (asciiLowerCase searchingState.searchQuery))) ∧
    (filteredRecords asciiLowerCase searchingState).map (fun r => r._id) =
      [some "a", some "b"] :=
  ⟨((filteredRecords_subsequence asciiLowerCase searchingState).2.2.1 (by decide)).1, by decide⟩

/-- C21: when the Price Records tab is not loading, it shows the empty-state
message, and no table, if the filtered list is empty, and it shows the table
(of the filtered records) exactly when the filtered list is not empty.  In
particular the state left by a successful load of 0 records shows the
empty-state message. -/
theorem recordsTab_empty_state (toLowerCase : String → String) (s : DTIState)
    (hloading : s.loading = false) :
    (filteredRecords toLowerCase s = [] → recordsTabBody toLowerCase s = .emptyState) ∧
    ((∃ rows, recordsTabBody toLowerCase s = .table rows) ↔
      filteredRecords toLowerCase s ≠ []) ∧
    (∀ rows, recordsTabBody toLowerCase s = .table rows → rows = filteredRecords toLowerCase s) ∧
    (recordsTabBody toLowerCase (loadRecords (.ok (some [])) s) = .emptyState ∧
      recordsTabBody toLowerCase (loadRecords (.ok none) s) = .emptyState) := by
  refine ⟨?_, ?_, ?_, ?_, ?_⟩
  · intro h
    simp [recordsTabBody, hloading, h]
  · constructor
    · rintro ⟨rows, h⟩ hnil
      simp [recordsTabBody, hloading, hnil] at h
    · intro h
      refine ⟨filteredRecords toLowerCase s, ?_⟩
      have hpos : 0 < (filteredRecords toLowerCase s).length := List.length_pos.2 h
      simp [recordsTabBody, hloading, hpos]
  · intro rows h
    unfold recordsTabBody at h
    rw [hloading] at h
    simp only [Bool.false_eq_true, if_false] at h
    split at h
    · exact (RecordsBody.table.inj h).symm
    · cases h
  · simp [recordsTabBody, loadRecords, loadRecordsSettle, filteredRecords]
  · simp [recordsTabBody, loadRecords, loadRecordsSettle, filteredRecords]

/-- Witness for C21: the screen before any record was loaded. -/
theorem recordsTab_empty_state_witness :
    recordsTabBody asciiLowerCase blankFormState = .emptyState :=
  (recordsTab_empty_state asciiLowerCase blankFormState rfl).1 (by decide)

/-- C24: when the loaded records have pairwise distinct ids and every
selected id is the id of a currently filtered record, the test `allSelected`
of `handleBulkDelete` is true exactly when the search filter hides no record
and the selected set is the set of the ids of all loaded records. -/
theorem allSelected_iff_everything_selected (toLowerCase : String → String) (s : DTIState)
    (hdistinct : (s.records.map (fun r => r._id)).Nodup)
    (hvisible : ∀ id ∈ s.selectedIds.toArray,
      id ∈ (filteredRecords toLowerCase s).map (fun r => r._id)) :
    allSelected toLowerCase s = true ↔
      filteredRecords toLowerCase s = s.records ∧
        ∀ id, s.selectedIds.has id = true ↔ id ∈ s.records.map (fun r => r._id) := by
  constructor
  · intro hall
    have hcov := (allSelected_iff_covers toLowerCase s hdistinct hvisible).1 hall
    have hlen := ((allSelected_iff toLowerCase s).1 hall).2
    have hFR : filteredRecords toLowerCase s = s.records :=
      (filteredRecords_sublist toLowerCase s).eq_of_length hlen
    refine ⟨hFR, fun id => ⟨?_, ?_⟩⟩
    · intro hid
      rw [← hFR]
      exact hvisible id ((JSSet.has_iff _ id).1 hid)
    · intro hid
      obtain ⟨r, hr, rfl⟩ := List.mem_map.1 hid
      exact hcov r hr
  · rintro ⟨_, hset⟩
    apply (allSelected_iff_covers toLowerCase s hdistinct hvisible).2
    intro r hr
    exact (hset _).2 (List.mem_map_of_mem _ hr)

/-- Witness for C24: the whole list of two records is shown and selected. -/
theorem allSelected_iff_everything_selected_witness :
    allSelected asciiLowerCase fullSelectionState = true ↔
      filteredRecords asciiLowerCase fullSelectionState = fullSelectionState.records ∧
        ∀ id, fullSelectionState.selectedIds.has id = true ↔
          id ∈ fullSelectionState.records.map (fun r => r._id) :=
  allSelected_iff_everything_selected asciiLowerCase fullSelectionState (by decide) (by decide)

/-! ## The posted high price -/

theorem truthy_iff (n : JSNumber) : n.truthy = true ↔ n ≠ .nan ∧ n.isZero = false := by
  cases n <;> simp [JSNumber.truthy, JSNumber.isZero]

theorem or_eq (a b : JSNumber) :
    (a.truthy = true → a.or b = a) ∧ (a.truthy = false → a.or b = b) := by
  constructor <;> intro h <;> simp [JSNumber.or, h]

/-- C25: the posted `price_high` is the parsed `price_high` text when that
parses to a non-zero number (not `NaN`, not zero), whatever the low price,
and the parsed `price_low` in every other case.  `handleManualSubmit` posts
one record, for which this holds.  `handleBulkSubmit`, when some row is
complete, posts one `bulkEntry` request with one record per complete row, in
order, and this holds for each record taken with the row it was built from;
it posts no other `bulkEntry`. -/
theorem posted_price_high (s : DTIState) (post : Outcome Unit)
    (bulkPost : Outcome (Option String)) (reload : Outcome (Option (List PriceRecord))) :
    (∃ e : PriceEntry,
      (handleManualSubmit s post reload).sent.head? = some (DtiRequest.manualEntry e) ∧
      (parseFloat s.manualForm.price_high ≠ .nan ∧
          (parseFloat s.manualForm.price_high).isZero = false →
        e.price_high = parseFloat s.manualForm.price_high) ∧
      (¬(parseFloat s.manualForm.price_high ≠ .nan ∧
          (parseFloat s.manualForm.price_high).isZero = false) →
        e.price_high = parseFloat s.manualForm.price_low)) ∧
    (validRows s.bulkRows ≠ [] →
      ∃ recs : List PriceEntry,
        (handleBulkSubmit s bulkPost reload).sent.head? = some (DtiRequest.bulkEntry recs) ∧
        List.Forall₂
          (fun (r : BulkRow) (e : PriceEntry) =>
            e.product_name = r.product_name ∧
            (parseFloat r.price_high ≠ .nan ∧ (parseFloat r.price_high).isZero = false →
              e.price_high = parseFloat r.price_high) ∧
            (¬(parseFloat r.price_high ≠ .nan ∧ (parseFloat r.price_high).isZero = false) →
              e.price_high = parseFloat r.price_low))
          (validRows s.bulkRows) recs) ∧
    (∀ recs : List PriceEntry,
      DtiRequest.bulkEntry recs ∈ (handleBulkSubmit s bulkPost reload).sent →
      List.Forall₂
        (fun (r : BulkRow) (e : PriceEntry) =>
          (parseFloat r.price_high ≠ .nan ∧ (parseFloat r.price_high).isZero = false →
            e.price_high = parseFloat r.price_high) ∧
          (¬(parseFloat r.price_high ≠ .nan ∧ (parseFloat r.price_high).isZero = false) →
            e.price_high = parseFloat r.price_low))
        (validRows s.bulkRows) recs) := by
  refine ⟨?_, ?_, ?_⟩
  · refine ⟨manualEntryPayload s.manualForm, ?_, ?_, ?_⟩
    · unfold handleManualSubmit
      cases post <;> rfl
    · intro h
      exact (or_eq _ _).1 ((truthy_iff _).2 h)
    · intro h
      rw [← truthy_iff, Bool.not_eq_true] at h
      exact (or_eq _ _).2 h
  · intro hrows
    refine ⟨(validRows s.bulkRows).map bulkEntryPayload, ?_, ?_⟩
    · unfold handleBulkSubmit
      cases bulkPost <;> simp [hrows]
    · rw [List.forall₂_map_right_iff, List.forall₂_same]
      intro r _
      refine ⟨rfl, ?_, ?_⟩
      · intro h
        exact (or_eq _ _).1 ((truthy_iff _).2 h)
      · intro h
        rw [← truthy_iff, Bool.not_eq_true] at h
        exact (or_eq _ _).2 h
  · intro recs hmem
    have hrecs : recs = (validRows s.bulkRows).map bulkEntryPayload := by
      unfold handleBulkSubmit at hmem
      split at hmem
      · simp at hmem
      · cases bulkPost <;> simpa using hmem
    rw [hrecs, List.forall₂_map_right_iff, List.forall₂_same]
    intro r _
    constructor
    · intro h
      exact (or_eq _ _).1 ((truthy_iff _).2 h)
    · intro h
      rw [← truthy_iff, Bool.not_eq_true] at h
      exact (or_eq _ _).2 h

/-- Witness for C25: in the manual form a high price of exactly 0 is posted as
the low price 50, and a high price 10 lower than the low price 50 is posted
as 10; the same two cases as bulk rows are posted the same way. -/
theorem posted_price_high_witness :
    (∃ e : PriceEntry,
      (handleManualSubmit zeroHighState (.ok ()) (.ok none)).sent.head? =
        some (DtiRequest.manualEntry e) ∧
      e.price_high = .finite false 50 0) ∧
    (∃ e : PriceEntry,
      (handleManualSubmit lowerHighState (.ok ()) (.ok none)).sent.head? =
        some (DtiRequest.manualEntry e) ∧
      e.price_high = .finite false 10 0) ∧
    (∃ (recs : List PriceEntry) (zero lower : PriceEntry),
      (handleBulkSubmit zeroHighRowsState (.ok none) (.ok none)).sent.head? =
        some (DtiRequest.bulkEntry recs) ∧
      recs = [zero, lower] ∧
      zero.product_name = "Tomato" ∧ zero.price_high = .finite false 50 0 ∧
      lower.product_name = "Rice" ∧ lower.price_high = .finite false 10 0) := by
  refine ⟨?_, ?_, ?_⟩
  · obtain ⟨e, hsent, _, hzero⟩ :=
      (posted_price_high zeroHighState (.ok ()) (.ok none) (.ok none)).1
    exact ⟨e, hsent, hzero (by decide)⟩
  · obtain ⟨e, hsent, hnonzero, _⟩ :=
      (posted_price_high lowerHighState (.ok ()) (.ok none) (.ok none)).1
    exact ⟨e, hsent, hnonzero (by decide)⟩
  · obtain ⟨recs, hsent, hrows⟩ :=
      (posted_price_high zeroHighRowsState (.ok ()) (.ok none) (.ok none)).2.1 (by decide)
    have hvalid : validRows zeroHighRowsState.bulkRows =
        [⟨"Tomato", "50", "0", "kg"⟩, ⟨"Rice", "50", "10", "kg"⟩] := by decide
    rw [hvalid] at hrows
    obtain ⟨zero, rest, ⟨hzname, _, hzero⟩, hrest, rfl⟩ := List.forall₂_cons_left_iff.1 hrows
    obtain ⟨lower, rest', ⟨hlname, hlower, _⟩, hnil, rfl⟩ :=
      List.forall₂_cons_left_iff.1 hrest
    have hrest' : rest' = [] := by simpa using hnil
    subst hrest'
    exact ⟨[zero, lower], zero, lower, hsent, rfl, hzname, hzero (by decide), hlname,
      hlower (by decide)⟩

/-! ## Bulk delete: what it leaves -/

/-- C29, counterexample: two records are selected, the prompt is confirmed and
the delete request succeeds, but the reload that `handleBulkDelete` starts
fails.  The banner left is the one of the failed load, not the success
message with the number of ids that were selected. -/
theorem handleBulkDelete_banner_after_failed_reload :
    (handleBulkDelete asciiLowerCase fullSelectionState (fun _ => true) (.ok ())
        (.error none)).state.flashMessages =
      [⟨"error", some "Failed to load DTI price records."⟩] ∧
    (handleBulkDelete asciiLowerCase fullSelectionState (fun _ => true) (.ok ())
        (.error none)).state.flashMessages ≠
      [⟨"success", some "2 record(s) deleted."⟩] := by
  refine ⟨by decide, by decide⟩

/-- C29, amended: `handleBulkDelete` changes the selection and the bulk-delete
mode only on success.  When the prompt is declined nothing is sent and the
state is unchanged; when the delete request fails, `selectedIds` and
`bulkDeleteMode` are unchanged and `loading` ends false; when it succeeds,
`selectedIds` becomes empty, `bulkDeleteMode` becomes false, `loading` ends
false, and the banner is the success message with the number of ids that
were selected if the reload that follows succeeds, and the message
`Failed to load DTI price records.` if that reload fails. -/
theorem handleBulkDelete_effect (toLowerCase : String → String) (s : DTIState)
    (confirm : String → Bool) (reload : Outcome (Option (List PriceRecord)))
    (hsel : s.selectedIds.size ≠ 0) :
    (confirm (bulkDeleteMsg toLowerCase s) = false →
      ∀ del, (handleBulkDelete toLowerCase s confirm del reload).sent = [] ∧
        (handleBulkDelete toLowerCase s confirm del reload).state = s) ∧
    (confirm (bulkDeleteMsg toLowerCase s) = true →
      ∀ e, (handleBulkDelete toLowerCase s confirm (.error e) reload).state.selectedIds =
          s.selectedIds ∧
        (handleBulkDelete toLowerCase s confirm (.error e) reload).state.bulkDeleteMode =
          s.bulkDeleteMode ∧
        (handleBulkDelete toLowerCase s confirm (.error e) reload).state.loading = false) ∧
    (confirm (bulkDeleteMsg toLowerCase s) = true →
      (handleBulkDelete toLowerCase s confirm (.ok ()) reload).state.selectedIds.values = [] ∧
      (handleBulkDelete toLowerCase s confirm (.ok ()) reload).state.bulkDeleteMode = false ∧
      (handleBulkDelete toLowerCase s confirm (.ok ()) reload).state.loading = false ∧
      ((∃ recs, reload = .ok recs) →
        (handleBulkDelete toLowerCase s confirm (.ok ()) reload).state.flashMessages =
          [⟨"success", some (toString s.selectedIds.size ++ " record(s) deleted.")⟩]) ∧
      ((∃ e, reload = .error e) →
        (handleBulkDelete toLowerCase s confirm (.ok ()) reload).state.flashMessages =
          [⟨"error", some "Failed to load DTI price records."⟩])) := by
  refine ⟨?_, ?_, ?_⟩
  · intro h del
    simp [handleBulkDelete, hsel, h]
  · intro h e
    simp [handleBulkDelete, hsel, h]
  · intro h
    cases reload with
    | error e =>
      simp [handleBulkDelete, hsel, h, loadRecords, loadRecordsSettle, JSSet.empty]
    | ok recs =>
      simp [handleBulkDelete, hsel, h, loadRecords, loadRecordsSettle, JSSet.empty]

/-- Witness for C29, amended: two records are selected and deleted, and the
reload succeeds. -/
theorem handleBulkDelete_effect_witness :
    (handleBulkDelete asciiLowerCase fullSelectionState (fun _ => true) (.ok ())
        (.ok none)).state.selectedIds.values = [] ∧
    (handleBulkDelete asciiLowerCase fullSelectionState (fun _ => true) (.ok ())
        (.ok none)).state.bulkDeleteMode = false ∧
    (handleBulkDelete asciiLowerCase fullSelectionState (fun _ => true) (.ok ())
        (.ok none)).state.loading = false ∧
    (handleBulkDelete asciiLowerCase fullSelectionState (fun _ => true) (.ok ())
        (.ok none)).state.flashMessages = [⟨"success", some "2 record(s) deleted."⟩] :=
  match (handleBulkDelete_effect asciiLowerCase fullSelectionState (fun _ => true) (.ok none)
      (by decide)).2.2 rfl with
  | ⟨h1, h2, h3, h4, _⟩ => ⟨h1, h2, h3, h4 ⟨none, rfl⟩⟩

/-! ## Stock badges, the rejection form, the order of the orders -/

theorem isOut_eq_not_isAvailable (p : Product) (ha : p.available ≠ none)
    (hq : p.quantity ≠ none) : isOut p = !isAvailable p := by
  cases hav : p.available with
  | none => exact absurd hav ha
  | some a =>
    cases hqu : p.quantity with
    | none => exact absurd hqu hq
    | some q =>
      cases a
      · simp [isOut, isAvailable, hav, hqu]
      · by_cases h0 : q ≤ 0
        · have hn : ¬ 0 < q := not_lt.2 h0
          simp [isOut, isAvailable, hav, hqu, h0, hn]
        · have hp : 0 < q := not_le.1 h0
          simp [isOut, isAvailable, hav, hqu, h0, hp]

theorem stockBadges_eq (p : Product) (q : ℚ) (hq : p.quantity = some q) (a : Bool)
    (ha : p.available = some a) :
    (stockBadges p = [.outOfStock] ↔ a = false ∨ q ≤ 0) ∧
    (stockBadges p = [.lowStock] ↔ a = true ∧ 0 < q ∧ q ≤ 10) ∧
    (stockBadges p = [.inStock] ↔ a = true ∧ 10 < q) := by
  by_cases h0 : q ≤ 0 <;> by_cases h10 : q ≤ 10 <;> cases a <;>
    simp [stockBadges, isOut, isLow, hq, ha, h0, h10] <;> linarith

section
variable (getTime : String → Option Int)

theorem orderedInsert_congr (r r' : Order → Order → Prop) [DecidableRel r] [DecidableRel r']
    (a : Order) (l : List Order) (h : ∀ b ∈ l, r a b ↔ r' a b) :
    l.orderedInsert r a = l.orderedInsert r' a := by
  induction l with
  | nil => rfl
  | cons b l ih =>
    have hb := h b (List.mem_cons_self _ _)
    have ih' := ih (fun c hc => h c (List.mem_cons_of_mem _ hc))
    by_cases hr : r a b
    · simp [List.orderedInsert, hr, hb.1 hr]
    · have hr' : ¬ r' a b := fun h' => hr (hb.2 h')
      simp [List.orderedInsert, hr, hr', ih']

theorem insertionSort_congr (r r' : Order → Order → Prop) [DecidableRel r] [DecidableRel r']
    (l : List Order) (h : ∀ a ∈ l, ∀ b ∈ l, r a b ↔ r' a b) :
    l.insertionSort r = l.insertionSort r' := by
  induction l with
  | nil => rfl
  | cons a l ih =>
    have ih' := ih (fun x hx y hy => h x (List.mem_cons_of_mem _ hx) y (List.mem_cons_of_mem _ hy))
    simp only [List.insertionSort]
    rw [ih']
    apply orderedInsert_congr
    intro b hb
    have hb' : b ∈ l := (List.perm_insertionSort r' l).subset hb
    exact h a (List.mem_cons_self _ _) b (List.mem_cons_of_mem _ hb')

theorem newerOrEqual_iff (a b : Order) (ta tb : Int) (ha : orderTime getTime a = some ta)
    (hb : orderTime getTime b = some tb) : newerOrEqual getTime a b = true ↔ tb ≤ ta := by
  simp [newerOrEqual, ha, hb]

end

/-- C26, counterexample: an available product with a stock of half a unit.
Its card shows the Low Stock badge although its quantity is not from 1 to
10. -/
theorem low_stock_below_one :
    halfUnitProduct.available = some true ∧
    halfUnitProduct.quantity = some (1 / 2) ∧
    stockBadges halfUnitProduct = [.lowStock] ∧
    ¬((1 : ℚ) ≤ 1 / 2 ∧ (1 / 2 : ℚ) ≤ 10) := by
  refine ⟨rfl, rfl, ?_, by norm_num⟩
  simp [stockBadges, isOut, isLow, halfUnitProduct, sampleProduct]
  norm_num

/-- C26, amended: when every product has a boolean `available` flag and a
numeric quantity, the Out of Stock statistic `unavailableCount` is the number
of product cards that show the Out of Stock badge, and every card shows
exactly one badge: Out of Stock when the product is not available or its
quantity is at most 0, Low Stock when it is available with a quantity above 0
and at most 10, In Stock when it is available with a quantity above 10. -/
theorem out_of_stock_statistic (products : List Product)
    (hwell : ∀ p ∈ products, p.available ≠ none ∧ p.quantity ≠ none) :
    unavailableCount products =
      ((products.countP (fun p => decide (StockBadge.outOfStock ∈ stockBadges p)) : Nat) : Int) ∧
    (∀ p ∈ products, ∃ badge, stockBadges p = [badge]) ∧
    (∀ p ∈ products, ∀ q a, p.quantity = some q → p.available = some a →
      (stockBadges p = [.outOfStock] ↔ a = false ∨ q ≤ 0) ∧
      (stockBadges p = [.lowStock] ↔ a = true ∧ 0 < q ∧ q ≤ 10) ∧
      (stockBadges p = [.inStock] ↔ a = true ∧ 10 < q)) := by
  refine ⟨?_, ?_, ?_⟩
  · have hbadge : ∀ p, decide (StockBadge.outOfStock ∈ stockBadges p) = isOut p := by
      intro p
      unfold stockBadges
      by_cases ho : isOut p = true
      · simp [ho]
      · by_cases hl : isLow p = true <;> simp [ho, hl]
    have hcount : products.countP (fun p => decide (StockBadge.outOfStock ∈ stockBadges p)) =
        products.countP (fun p => !isAvailable p) := by
      apply List.countP_congr
      intro p hp
      rw [hbadge p, isOut_eq_not_isAvailable p (hwell p hp).1 (hwell p hp).2]
    have hsplit := List.length_eq_countP_add_countP isAvailable products
    rw [hcount]
    unfold unavailableCount availableCount
    rw [← List.countP_eq_length_filter]
    have : products.countP (fun p => !isAvailable p) =
        products.countP (fun a => decide ¬isAvailable a = true) := by
      apply List.countP_congr
      intro p _
      simp
    omega
  · intro p _
    unfold stockBadges
    split
    · exact ⟨_, rfl⟩
    · split
      · exact ⟨_, rfl⟩
      · exact ⟨_, rfl⟩
  · intro p _ q a hq ha
    exact stockBadges_eq p q hq a ha

/-- Witness for C26, amended: of three products, the one with stock 0 and the
one switched off show the Out of Stock badge, and the third, available with a
stock of 5, shows Low Stock. -/
theorem out_of_stock_statistic_witness :
    unavailableCount threeProducts =
      ((threeProducts.countP (fun p => decide (StockBadge.outOfStock ∈ stockBadges p)) : Nat) :
        Int) ∧
    unavailableCount threeProducts = 2 ∧
    stockBadges (sampleProduct "Tomato" 5 true) = [.lowStock] :=
  ⟨(out_of_stock_statistic threeProducts (by decide)).1, by decide,
    ((out_of_stock_statistic threeProducts (by decide)).2.2 (sampleProduct "Tomato" 5 true)
      (by decide) 5 true rfl rfl).2.1.2 ⟨rfl, by decide, by decide⟩⟩

/-- C27: `updateOrderStatus(orderId, 'rejected')` sends nothing and changes
only `rejectionOrderId`, to `orderId`; the typed reason, the banner, the
products and the orders are unchanged.  So a reason typed while the form was
open for one order is still there once the form is opened for another.  The
reason is emptied and the form closed by `cancelRejection` and by a successful
`submitRejection`; an unsuccessful `submitRejection`, `updateOrderStatus` with
another status, typing in the form and `loadFarmerData` leave the form open
where it was, and all but typing leave the reason. -/
theorem rejection_form_frame (s : DashState) (orderId : String)
    (res : Outcome (Option StatusData)) (productsRes : Outcome (Option (List Product)))
    (ordersRes : Outcome (Option (List Order))) :
    ((updateOrderStatus s orderId "rejected" res productsRes ordersRes).sent = [] ∧
      (updateOrderStatus s orderId "rejected" res productsRes ordersRes).state.rejectionOrderId =
        some orderId ∧
      (updateOrderStatus s orderId "rejected" res productsRes ordersRes).state.rejectionReason =
        s.rejectionReason ∧
      (updateOrderStatus s orderId "rejected" res productsRes ordersRes).state.flashMessages =
        s.flashMessages ∧
      (updateOrderStatus s orderId "rejected" res productsRes ordersRes).state.products =
        s.products ∧
      (updateOrderStatus s orderId "rejected" res productsRes ordersRes).state.sellerOrders =
        s.sellerOrders) ∧
    (∀ first typed,
      (updateOrderStatus
        (setRejectionReason
          (updateOrderStatus s first "rejected" res productsRes ordersRes).state typed)
        orderId "rejected" res productsRes ordersRes).state.rejectionReason = typed ∧
      (updateOrderStatus
        (setRejectionReason
          (updateOrderStatus s first "rejected" res productsRes ordersRes).state typed)
        orderId "rejected" res productsRes ordersRes).state.rejectionOrderId = some orderId) ∧
    ((cancelRejection s).rejectionReason = "" ∧ (cancelRejection s).rejectionOrderId = none) ∧
    (trim s.rejectionReason ≠ "" → (∃ data, res = .ok (some data) ∧ data.success = true) →
      (submitRejection s orderId res productsRes ordersRes).state.rejectionReason = "" ∧
      (submitRejection s orderId res productsRes ordersRes).state.rejectionOrderId = none) ∧
    (¬(trim s.rejectionReason ≠ "" ∧ ∃ data, res = .ok (some data) ∧ data.success = true) →
      (submitRejection s orderId res productsRes ordersRes).state.rejectionReason =
        s.rejectionReason ∧
      (submitRejection s orderId res productsRes ordersRes).state.rejectionOrderId =
        s.rejectionOrderId) ∧
    (∀ status, status ≠ "rejected" →
      (updateOrderStatus s orderId status res productsRes ordersRes).state.rejectionReason =
        s.rejectionReason ∧
      (updateOrderStatus s orderId status res productsRes ordersRes).state.rejectionOrderId =
        s.rejectionOrderId) ∧
    (∀ typed, (setRejectionReason s typed).rejectionOrderId = s.rejectionOrderId) ∧
    ((loadFarmerData productsRes ordersRes s).state.rejectionReason = s.rejectionReason ∧
      (loadFarmerData productsRes ordersRes s).state.rejectionOrderId = s.rejectionOrderId) := by
  have hload : ∀ t : DashState,
      (loadFarmerData productsRes ordersRes t).state.rejectionReason = t.rejectionReason ∧
      (loadFarmerData productsRes ordersRes t).state.rejectionOrderId = t.rejectionOrderId := by
    intro t
    unfold loadFarmerData
    rcases productsRes with e | ps
    · exact ⟨rfl, rfl⟩
    · rcases ordersRes with e | os <;> exact ⟨rfl, rfl⟩
  refine ⟨by simp [updateOrderStatus], fun first typed => by simp [updateOrderStatus, setRejectionReason],
    ⟨rfl, rfl⟩, ?_, ?_, ?_, fun typed => rfl, hload s⟩
  · rintro hreason ⟨data, rfl, hsuccess⟩
    unfold submitRejection
    simp only [strTruthy, ne_eq, hreason, not_false_eq_true, decide_True, Bool.not_true,
      Bool.false_eq_true, if_false, Option.getD_some, hsuccess, if_true]
    exact hload _
  · intro hnot
    unfold submitRejection
    by_cases hreason : trim s.rejectionReason = ""
    · simp [strTruthy, hreason]
    · simp only [strTruthy, ne_eq, hreason, not_false_eq_true, decide_True, Bool.not_true,
        Bool.false_eq_true, if_false]
      rcases res with e | data
      · exact ⟨rfl, rfl⟩
      · by_cases hs : (data.getD ⟨false, none⟩).success = true
        · exfalso
          apply hnot
          refine ⟨hreason, ?_⟩
          cases data with
          | none => simp at hs
          | some d => exact ⟨d, rfl, by simpa using hs⟩
        · simp [hs]
  · intro status hstatus
    unfold updateOrderStatus
    rw [if_neg hstatus]
    rcases res with e | data
    · exact ⟨rfl, rfl⟩
    · by_cases hs : (data.getD ⟨false, none⟩).success = true
      · simp only [hs, if_true]
        exact hload _
      · simp [hs]

/-- Witness for C27: a rejection with a reason is accepted by the server. -/
theorem rejection_form_frame_witness :
    (submitRejection (rejectingState "no stock") "o1" (.ok (some ⟨true, none⟩)) (.ok none)
        (.ok none)).state.rejectionReason = "" ∧
    (submitRejection (rejectingState "no stock") "o1" (.ok (some ⟨true, none⟩)) (.ok none)
        (.ok none)).state.rejectionOrderId = none :=
  (rejection_form_frame (rejectingState "no stock") "o1" (.ok (some ⟨true, none⟩)) (.ok none)
    (.ok none)).2.2.2.1 (by decide) ⟨⟨true, none⟩, rfl, rfl⟩

section
variable (getTime : String → Option Int)

/-- C28: when every `created_at` is a valid date or missing (a missing one
counts as time 0), `sortedSellerOrders` is a permutation of `sellerOrders`
ordered from newest to oldest, in which two orders of equal time keep their
original relative order. -/
theorem sortedSellerOrders_newest_first (sellerOrders : List Order)
    (hvalid : ∀ o ∈ sellerOrders, orderTime getTime o ≠ none) :
    (sortedSellerOrders getTime sellerOrders).Perm sellerOrders ∧
    (sortedSellerOrders getTime sellerOrders).Pairwise
      (fun a b => ∃ aDate bDate, orderTime getTime a = some aDate ∧
        orderTime getTime b = some bDate ∧ bDate ≤ aDate) ∧
    (∀ a b, orderTime getTime a = orderTime getTime b → [a, b].Sublist sellerOrders →
      [a, b].Sublist (sortedSellerOrders getTime sellerOrders)) ∧
    (∀ o : Order, o.created_at = none → orderTime getTime o = some 0) := by
  have hperm : (sortedSellerOrders getTime sellerOrders).Perm sellerOrders :=
    List.perm_insertionSort _ _
  refine ⟨hperm, ?_, ?_, ?_⟩
  · let t : Order → Int := fun o => (orderTime getTime o).getD 0
    have hcongr : sortedSellerOrders getTime sellerOrders =
        sellerOrders.insertionSort (fun a b => t b ≤ t a) := by
      unfold sortedSellerOrders
      apply insertionSort_congr
      intro a ha b hb
      cases hta : orderTime getTime a with
      | none => exact absurd hta (hvalid a ha)
      | some ta =>
        cases htb : orderTime getTime b with
        | none => exact absurd htb (hvalid b hb)
        | some tb =>
          rw [newerOrEqual_iff getTime a b ta tb hta htb]
          simp [t, hta, htb]
    haveI : IsTotal Order (fun a b => t b ≤ t a) := ⟨fun a b => le_total (t b) (t a)⟩
    haveI : IsTrans Order (fun a b => t b ≤ t a) := ⟨fun a b c hab hbc => le_trans hbc hab⟩
    have hsorted : (sellerOrders.insertionSort (fun a b => t b ≤ t a)).Pairwise
        (fun a b => t b ≤ t a) := List.sorted_insertionSort _ sellerOrders
    rw [hcongr]
    have hmem : ∀ o ∈ sellerOrders.insertionSort (fun a b => t b ≤ t a),
        orderTime getTime o ≠ none :=
      fun o ho => hvalid o ((List.perm_insertionSort _ sellerOrders).subset ho)
    refine (List.Pairwise.and_mem.1 hsorted).imp ?_
    rintro a b ⟨ha, hb, hab⟩
    cases hta : orderTime getTime a with
    | none => exact absurd hta (hmem a ha)
    | some ta =>
      cases htb : orderTime getTime b with
      | none => exact absurd htb (hmem b hb)
      | some tb =>
        refine ⟨ta, tb, rfl, rfl, ?_⟩
        simpa [t, hta, htb] using hab
  · intro a b hab hsub
    unfold sortedSellerOrders
    apply List.pair_sublist_insertionSort _ hsub
    show newerOrEqual getTime a b = true
    unfold newerOrEqual
    rw [hab]
    cases orderTime getTime b <;> simp
  · intro o ho
    simp [orderTime, ho]

end

/-- Witness for C28: four orders, two of them of the same newest date and one
without a date. -/
theorem sortedSellerOrders_newest_first_witness :
    (sortedSellerOrders sampleGetTime fourOrders).Perm fourOrders ∧
    (sortedSellerOrders sampleGetTime fourOrders).map (fun o => o.id) =
      ["o2", "o4", "o1", "o3"] :=
  ⟨(sortedSellerOrders_newest_first sampleGetTime fourOrders (by decide)).1, by decide⟩

/-! ## Category histogram -/

theorem incrementCount_keys (key : String) (counts : List (String × CountValue)) :
    (incrementCount key counts).map Prod.fst = counts.map Prod.fst := by
  induction counts with
  | nil => rfl
  | cons c rest ih =>
    obtain ⟨k, v⟩ := c
    unfold incrementCount
    split
    · rfl
    · simp [ih]

theorem mem_incrementCount (key : String) (counts : List (String × CountValue))
    (hnodup : (counts.map Prod.fst).Nodup) (c' : String × CountValue)
    (h : c' ∈ incrementCount key counts) :
    ∃ c ∈ counts, c'.1 = c.1 ∧ c'.2 = if c.1 = key then c.2.increment else c.2 := by
  induction counts with
  | nil => simp [incrementCount] at h
  | cons c rest ih =>
    obtain ⟨k, v⟩ := c
    rw [List.map_cons, List.nodup_cons] at hnodup
    unfold incrementCount at h
    split at h
    · rename_i hk
      rcases List.mem_cons.1 h with rfl | hrest
      · exact ⟨(k, v), List.mem_cons_self _ _, rfl, by simp [hk]⟩
      · refine ⟨c', List.mem_cons_of_mem _ hrest, rfl, ?_⟩
        have hne : c'.1 ≠ key := by
          intro e
          apply hnodup.1
          rw [hk, ← e]
          exact List.mem_map.2 ⟨c', hrest, rfl⟩
        simp [hne]
    · rename_i hk
      rcases List.mem_cons.1 h with rfl | hrest
      · exact ⟨(k, v), List.mem_cons_self _ _, rfl, by simp [hk]⟩
      · obtain ⟨c, hc, hrest'⟩ := ih hnodup.2 hrest
        exact ⟨c, List.mem_cons_of_mem _ hc, hrest'⟩

theorem incrementCount_sum (key : String) (counts : List (String × CountValue))
    (hkey : key ∈ counts.map Prod.fst)
    (hnum : ∀ c ∈ counts, ∃ n, c.2 = .number n) :
    ((incrementCount key counts).map (fun c => c.2.toNat)).sum =
      (counts.map (fun c => c.2.toNat)).sum + 1 := by
  induction counts with
  | nil => simp at hkey
  | cons c rest ih =>
    obtain ⟨k, v⟩ := c
    unfold incrementCount
    split
    · obtain ⟨n, hn⟩ := hnum (k, v) (List.mem_cons_self _ _)
      simp only at hn
      subst hn
      simp [CountValue.increment, CountValue.toNat]
      omega
    · rename_i hk
      have hrest : key ∈ rest.map Prod.fst := by
        rcases List.mem_cons.1 hkey with h | h
        · exact absurd h.symm hk
        · exact h
      simp [ih hrest (fun c hc => hnum c (List.mem_cons_of_mem _ hc))]
      omega

theorem countP_key_append (done : List Product) (p : Product) (k : String) :
    (done ++ [p]).countP (fun x => decide (categoryKey x = k)) =
      done.countP (fun x => decide (categoryKey x = k)) + (if categoryKey p = k then 1 else 0) := by
  rw [List.countP_append]
  by_cases h : categoryKey p = k <;> simp [List.countP_cons, h]

theorem addToCategoryCount_inv (done : List Product) (counts : List (String × CountValue))
    (p : Product) (hinv : CategoryCountInv done counts)
    (hkey : categoryKey p ∉ objectPrototypeKeys) :
    CategoryCountInv (done ++ [p]) (addToCategoryCount counts p) := by
  obtain ⟨hnodup, hcounts, hcover, hsum⟩ := hinv
  have hproto : categoryKey p ≠ "__proto__" := by
    intro e
    apply hkey
    rw [e]
    decide
  by_cases hmem : categoryKey p ∈ counts.map Prod.fst
  · have hadd : addToCategoryCount counts p = incrementCount (categoryKey p) counts := by
      unfold addToCategoryCount
      rw [if_pos (by simpa using hmem)]
    rw [hadd]
    refine ⟨?_, ?_, ?_, ?_⟩
    · rw [incrementCount_keys]
      exact hnodup
    · intro c' hc'
      obtain ⟨c, hc, h1, h2⟩ := mem_incrementCount _ counts hnodup c' hc'
      obtain ⟨hval, hpos⟩ := hcounts c hc
      rw [h1, countP_key_append, h2, hval]
      by_cases hk : c.1 = categoryKey p
      · simp [hk, CountValue.increment]
      · rw [if_neg hk, if_neg (Ne.symm hk), Nat.add_zero]
        exact ⟨rfl, hpos⟩
    · intro x hx
      rw [incrementCount_keys]
      rcases List.mem_append.1 hx with h | h
      · exact hcover x h
      · rw [List.mem_singleton.1 h]
        exact hmem
    · rw [incrementCount_sum _ counts hmem (fun c hc => ⟨_, (hcounts c hc).1⟩), hsum]
      simp
  · have hadd : addToCategoryCount counts p = counts ++ [(categoryKey p, .number 1)] := by
      unfold addToCategoryCount
      rw [if_neg (by simpa using hmem), if_neg hproto, if_neg (by simpa using hkey)]
    rw [hadd]
    have hnone : done.countP (fun x => decide (categoryKey x = categoryKey p)) = 0 := by
      rw [List.countP_eq_zero]
      intro x hx
      simp only [decide_eq_true_eq]
      intro e
      exact hmem (e ▸ hcover x hx)
    refine ⟨?_, ?_, ?_, ?_⟩
    · rw [List.map_append, List.nodup_append]
      refine ⟨hnodup, by simp, ?_⟩
      intro a ha hb
      simp only [List.map_cons, List.map_nil, List.mem_singleton] at hb
      exact hmem (hb ▸ ha)
    · intro c hc
      rcases List.mem_append.1 hc with h | h
      · obtain ⟨hval, hpos⟩ := hcounts c h
        have hne : ¬ categoryKey p = c.1 := by
          intro e
          exact hmem (e ▸ List.mem_map.2 ⟨c, h, rfl⟩)
        rw [countP_key_append, if_neg hne, Nat.add_zero]
        exact ⟨hval, hpos⟩
      · rw [List.mem_singleton.1 h]
        simp only
        rw [countP_key_append, hnone]
        simp
    · intro x hx
      rw [List.map_append]
      rcases List.mem_append.1 hx with h | h
      · exact List.mem_append_left _ (hcover x h)
      · rw [List.mem_singleton.1 h]
        simp
    · rw [List.map_append, List.sum_append, hsum]
      simp [CountValue.toNat]

theorem categoryCount_inv (products : List Product)
    (hkeys : ∀ p ∈ products, categoryKey p ∉ objectPrototypeKeys) :
    CategoryCountInv products (categoryCount products) := by
  induction products using List.reverseRecOn with
  | nil => simp [CategoryCountInv, categoryCount]
  | append_singleton done p ih =>
    have hdone := ih (fun x hx => hkeys x (List.mem_append_left _ hx))
    have hstep := addToCategoryCount_inv done (categoryCount done) p hdone
      (hkeys p (List.mem_append_right _ (List.mem_singleton_self p)))
    unfold categoryCount at hstep ⊢
    rw [List.foldl_append]
    exact hstep

/-- Away from the inherited property names, `categoryCount` is the histogram
of the categories: the labels are distinct, every product's category (or
`Other`) is a label, each label carries the number of products filed under
it, which is at least 1, and the counts sum to the number of products. -/
theorem categoryCount_histogram (products : List Product)
    (hkeys : ∀ p ∈ products, categoryKey p ∉ objectPrototypeKeys) :
    ((categoryCount products).map Prod.fst).Nodup ∧
    (∀ c ∈ categoryCount products,
      c.2 = .number (products.countP (fun p => decide (categoryKey p = c.1))) ∧
      1 ≤ products.countP (fun p => decide (categoryKey p = c.1))) ∧
    (∀ p ∈ products, categoryKey p ∈ (categoryCount products).map Prod.fst) ∧
    ((categoryCount products).map (fun c => c.2.toNat)).sum = products.length :=
  categoryCount_inv products hkeys

/-- C22, the failing case: one product whose category is `constructor`.
`categoryCount[key]` is then the inherited `Object` function, which is truthy,
and `+ 1` turns it into a text ending in `1`: the label `constructor` carries
a text and not the number 1, and the numbers of the chart sum to 0, not to
the one product. -/
theorem categoryCount_inherited_key :
    categoryKey inheritedCategoryProduct = "constructor" ∧
    categoryCount [inheritedCategoryProduct] = [("constructor", .text "constructor" 1)] ∧
    ((categoryCount [inheritedCategoryProduct]).map (fun c => c.2.toNat)).sum = 0 := by
  refine ⟨by decide, by decide, by decide⟩

end FarmtoClick
